import Mathlib

/-!
# Verification of the syncthing_TUI state-synchronization engine

Shallow embedding of the projection/state-synchronization core of the
`syncthing_TUI` repository (Go), translated from `src/app/app.go` and the
fetch-command file `src/unnamed/part_001`.

Modelling conventions:
* Go `string` is Lean `String` (device IDs and folder IDs are ASCII).
* Go `int`/`int64` are Lean `Int`; the verified functions never overflow
  them in the claims' ranges, and no wrap-around arithmetic occurs in the
  embedded code paths.
* Go `time.Time` timestamps and `time.Duration` values are modelled as
  `Int` nanoseconds (`time.Time.Sub` yields an `int64` nanosecond count).
* A Go `map[string]V` is modelled as an association list
  `List (String × V)` with replace-first-or-append assignment, lookup, and
  delete-all-occurrences removal; Go guarantees unique keys, under which
  this is an exact model of assignment/lookup/delete.
* Go `float64` appears only in two places relevant to the claims:
  `GroupedCompletion.Completion` (a `math.Floor` of an exact quotient,
  modelled as `Option Int` in exact rational arithmetic, `none` standing
  for the NaN/±Inf results of a zero denominator, which compare unequal
  to any number, as they do in Go) and time conversions
  (`Duration.Seconds()` followed by `int64(...)` truncation, modelled as
  exact truncating integer division, which agrees with the float path for
  every duration below ~2^52 nanoseconds ≈ 52 days of span).
-/

/-! ## Go map model -/

/-- Go `m[k] = v` on a `map[string]V`: replace the binding of `k` if
present (first occurrence), otherwise append a new binding. -/
def mapSet {β : Type} (m : List (String × β)) (k : String) (v : β) :
    List (String × β) :=
  match m with
  | [] => [(k, v)]
  | (k', v') :: rest =>
    if k' = k then (k, v) :: rest else (k', v') :: mapSet rest k v

/-- Go `m[k]` lookup on a `map[string]V`. -/
def mapGet {β : Type} (m : List (String × β)) (k : String) : Option β :=
  match m with
  | [] => none
  | (k', v') :: rest => if k' = k then some v' else mapGet rest k

/-- Go `delete(m, k)` on a `map[string]V`. -/
def mapDel {β : Type} (m : List (String × β)) (k : String) :
    List (String × β) :=
  m.filter (fun p => ¬ p.1 = k)

/-- The set of keys bound in the map. -/
def mapHasKey {β : Type} (m : List (String × β)) (k : String) : Prop :=
  ∃ p ∈ m, p.1 = k

/-! ## Data structures of the `syncthing` package

The `syncthing` model package itself is not among the provided sources
(only its callers are); the structures below carry exactly the fields the
embedded functions read, with names and field order taken from the calls
in `src/app/app.go` and from the earlier in-repo copy of the models
(`src/syncthing_models.go`, `src/unnamed/part_002`). Unread fields are
elided; that elision is invisible to every verified function. -/

namespace syncthing

/-- One entry of `FolderConfig.Devices`. -/
structure FolderDevice where
  deviceID : String
  deriving DecidableEq, Repr

/-- `syncthing.FolderConfig` (fields read by the embedded functions). -/
structure FolderConfig where
  id : String
  label : String
  type : String
  devices : List FolderDevice
  paused : Bool
  deriving DecidableEq, Repr

/-- `syncthing.FolderStatus` (fields read by the embedded functions). -/
structure FolderStatus where
  invalid : String
  needTotalItems : Int
  receiveOnlyTotalItems : Int
  state : String
  error : String
  deriving DecidableEq, Repr

/-- The Go zero value `syncthing.FolderStatus{}`. -/
def FolderStatus.zero : FolderStatus :=
  { invalid := "", needTotalItems := 0, receiveOnlyTotalItems := 0
    state := "", error := "" }

/-- `syncthing.FolderStats` (fields read by the embedded functions). -/
structure FolderStats where
  lastFileFilename : String
  lastScan : Int
  deriving DecidableEq, Repr

def FolderStats.zero : FolderStats := { lastFileFilename := "", lastScan := 0 }

/-- `syncthing.DeviceConfig` (fields read by the embedded functions). -/
structure DeviceConfig where
  deviceID : String
  name : String
  compression : String
  paused : Bool
  deriving DecidableEq, Repr

/-- `syncthing.DeviceStats` (fields read by the embedded functions). -/
structure DeviceStats where
  lastSeen : Int
  deriving DecidableEq, Repr

def DeviceStats.zero : DeviceStats := { lastSeen := 0 }

/-- `syncthing.Connection` (fields read by the embedded functions).  The
Go field `At` is a timestamp; `at` is a Lean keyword, hence `atNs`. -/
structure Connection where
  atNs : Int
  inBytesTotal : Int
  outBytesTotal : Int
  connected : Bool
  address : String
  deriving DecidableEq, Repr

def Connection.zero : Connection :=
  { atNs := 0, inBytesTotal := 0, outBytesTotal := 0, connected := false
    address := "" }

/-- `syncthing.StatusCompletion`: per-`(device, folder)` completion
counters.  The daemon-reported `Completion` percentage is a `float64` the
status logic never reads (it recomputes its own aggregate), so it is
modelled as an exact rational. -/
structure StatusCompletion where
  completion : Rat
  globalBytes : Int
  globalItems : Int
  needBytes : Int
  needItems : Int
  needDeletes : Int
  remoteState : String
  sequence : Int
  deriving DecidableEq, Repr

/-- The Go zero value `syncthing.StatusCompletion{}`. -/
def StatusCompletion.zero : StatusCompletion :=
  { completion := 0, globalBytes := 0, globalItems := 0, needBytes := 0
    needItems := 0, needDeletes := 0, remoteState := "", sequence := 0 }

/-- `syncthing.Config` (fields read by the embedded functions). -/
structure Config where
  folders : List FolderConfig
  devices : List DeviceConfig
  deriving DecidableEq, Repr

/-- `syncthing.FolderSummaryEventData`. -/
structure FolderSummaryEventData where
  folder : String
  summary : FolderStatus
  deriving DecidableEq, Repr

/-- `syncthing.FolderScanProgressEventData`.  `Rate` is a `float64` in Go,
only stored and compared; modelled as an exact rational. -/
structure FolderScanProgressEventData where
  folder : String
  current : Int
  total : Int
  rate : Rat
  deriving DecidableEq, Repr

/-- The Go zero value `syncthing.FolderScanProgressEventData{}` that the
`StateChanged` handler passes to `updateFolderScan`. -/
def FolderScanProgressEventData.zero : FolderScanProgressEventData :=
  { folder := "", current := 0, total := 0, rate := 0 }

/-- `syncthing.StateChangedEventData`.  The Go fields are `Folder`,
`From`, `To`; `from` is a Lean keyword, hence `fromState`/`toState`. -/
structure StateChangedEventData where
  folder : String
  fromState : String
  toState : String
  deriving DecidableEq, Repr

/-- `syncthing.FolderCompletionEventData`. -/
structure FolderCompletionEventData where
  completion : Rat
  device : String
  folder : String
  globalBytes : Int
  globalItems : Int
  needBytes : Int
  needDeletes : Int
  needItems : Int
  remoteState : String
  sequence : Int
  deriving DecidableEq, Repr

/-- An element of `PendingDevicesChangedEventData.Added`. -/
structure PendingDeviceAdded where
  address : String
  deviceID : String
  name : String
  deriving DecidableEq, Repr

/-- An element of `PendingDevicesChangedEventData.Removed`. -/
structure PendingDeviceRemoved where
  deviceID : String
  deriving DecidableEq, Repr

/-- `syncthing.PendingDevicesChangedEventData`. -/
structure PendingDevicesChangedEventData where
  added : List PendingDeviceAdded
  removed : List PendingDeviceRemoved
  deriving DecidableEq, Repr

end syncthing

/-! ## View models and projection state (`src/app/app.go`) -/

namespace app

/-- `app.FolderViewModel`. -/
structure FolderViewModel where
  config : syncthing.FolderConfig
  status : syncthing.FolderStatus
  extraStats : syncthing.FolderStats
  scanProgress : syncthing.FolderScanProgressEventData
  sharedDevices : List String
  deriving DecidableEq, Repr

/-- `app.DeviceViewModel`.  The Go field `Connection` has type
`lo.Tuple2[bool, syncthing.Connection]` (the `bool` records whether a
connection entry is known for the device at all). -/
structure DeviceViewModel where
  config : syncthing.DeviceConfig
  extraStats : syncthing.DeviceStats
  connection : Bool × syncthing.Connection
  statusCompletion : List (String × syncthing.StatusCompletion)
  folders : List (String × String)
  inGoingBytesPerSecond : Int
  outGoingBytesPerSecond : Int
  deriving DecidableEq, Repr

/-- `app.PendingDevice`. -/
structure PendingDevice where
  address : String
  deviceID : String
  name : String
  atNs : Int
  deriving DecidableEq, Repr

/-- The projection-store slice of `app.model` mutated by the event-apply
operations (rendering/HTTP fields and the `putConfig` command builder are
not projection data and are not modelled). -/
structure ProjectionState where
  folders : List FolderViewModel
  devices : List DeviceViewModel
  pendingDevices : List (String × PendingDevice)
  thisDeviceID : String
  deriving DecidableEq, Repr

/-! ### Apply / merge operations (`src/app/app.go:538-704`) -/

/-- `app.updateFolderStatus` (app.go:630): replace the stored status of
the folder whose config ID matches `status.1`. -/
def updateFolderStatus (folders : List FolderViewModel)
    (status : String × syncthing.FolderStatus) : List FolderViewModel :=
  folders.map fun item =>
    if item.config.id = status.1 then { item with status := status.2 }
    else item

/-- `app.updateFolderStats` (app.go:644): merge a folder-stats snapshot. -/
def updateFolderStats (folders : List FolderViewModel)
    (statsDict : List (String × syncthing.FolderStats)) :
    List FolderViewModel :=
  folders.map fun item =>
    match mapGet statsDict item.config.id with
    | some stats => { item with extraStats := stats }
    | none => item

/-- `app.updateDeviceExtraStats` (app.go:659): merge a device-stats
snapshot. -/
def updateDeviceExtraStats (devices : List DeviceViewModel)
    (statsDict : List (String × syncthing.DeviceStats)) :
    List DeviceViewModel :=
  devices.map fun item =>
    match mapGet statsDict item.config.deviceID with
    | some stats => { item with extraStats := stats }
    | none => item

/-- `app.updateFolderScan` (app.go:674): replace the stored scan progress
of the folder whose config ID matches `scanProgress.Folder`. -/
def updateFolderScan (folders : List FolderViewModel)
    (scanProgress : syncthing.FolderScanProgressEventData) :
    List FolderViewModel :=
  folders.map fun item =>
    if item.config.id = scanProgress.folder then
      { item with scanProgress := scanProgress }
    else item

/-- `app.updateDeviceStatusCompletion` (app.go:688): `lo.Find` the first
device with the given ID and set its completion map at `folderID`; if no
device matches, do nothing.  (In Go the found struct is a copy but its
`StatusCompletion` map is shared, so exactly that one map is mutated.) -/
def updateDeviceStatusCompletion (devices : List DeviceViewModel)
    (deviceID : String) (folderID : String)
    (statusCompletion : syncthing.StatusCompletion) :
    List DeviceViewModel :=
  match devices with
  | [] => []
  | d :: rest =>
    if d.config.deviceID = deviceID then
      { d with statusCompletion :=
          mapSet d.statusCompletion folderID statusCompletion } :: rest
    else d :: updateDeviceStatusCompletion rest deviceID folderID
        statusCompletion

/-- The `sharedDevices` local of `app.updateFolderViewModelConfigs`
(app.go:551-565): the names of the snapshot devices sharing the folder,
this device's own ID excluded. -/
def sharedDeviceNames (config : syncthing.Config) (thisDeviceID : String)
    (folderConfig : syncthing.FolderConfig) : List String :=
  folderConfig.devices.filterMap fun device =>
    if device.deviceID = thisDeviceID then none
    else
      match config.devices.find?
          (fun d => d.deviceID = device.deviceID) with
      | some d => some d.name
      | none => none

/-- The per-folder closure body of `app.updateFolderViewModelConfigs`
(app.go:544-574): keep the non-config fields of a folder already present
in `current`, and build a fresh (Go zero-valued) view model otherwise. -/
def folderConfigMerge (config : syncthing.Config)
    (current : List FolderViewModel) (thisDeviceID : String)
    (folderConfig : syncthing.FolderConfig) : FolderViewModel :=
  match current.find? (fun fvm => folderConfig.id = fvm.config.id) with
  | some currentFVM =>
    { currentFVM with
      config := folderConfig
      sharedDevices := sharedDeviceNames config thisDeviceID folderConfig }
  | none =>
    { config := folderConfig, status := syncthing.FolderStatus.zero
      extraStats := syncthing.FolderStats.zero
      scanProgress := syncthing.FolderScanProgressEventData.zero
      sharedDevices := sharedDeviceNames config thisDeviceID folderConfig }

/-- `app.updateFolderViewModelConfigs` (app.go:538): rebuild the folder
list from a config snapshot; folders absent from the snapshot are
dropped. -/
def updateFolderViewModelConfigs (config : syncthing.Config)
    (current : List FolderViewModel) (thisDeviceID : String) :
    List FolderViewModel :=
  config.folders.map (folderConfigMerge config current thisDeviceID)

/-- The `folders` local of `app.updateDeviceViewModelConfigs`
(app.go:597-611): the `(id, label)` pairs of the snapshot folders shared
with the device. -/
def sharedFolderPairs (config : syncthing.Config)
    (deviceConfig : syncthing.DeviceConfig) : List (String × String) :=
  config.folders.filterMap fun folderConfig =>
    if folderConfig.devices.any
        (fun item => item.deviceID = deviceConfig.deviceID) then
      some (folderConfig.id, folderConfig.label)
    else none

/-- The per-device closure body of `app.updateDeviceViewModelConfigs`
(app.go:587-624): skip this device's own ID (`none`), recompute the
shared-folder list from the snapshot, keep the non-config fields of a
device already present in `current`, and build a fresh view model (with
an empty completion map) otherwise. -/
def deviceConfigMerge (config : syncthing.Config)
    (current : List DeviceViewModel) (thisDeviceID : String)
    (deviceConfig : syncthing.DeviceConfig) : Option DeviceViewModel :=
  if thisDeviceID = deviceConfig.deviceID then none
  else
    match current.find?
        (fun dvm => deviceConfig.deviceID = dvm.config.deviceID) with
    | some currentDVM =>
      some { currentDVM with
             config := deviceConfig
             folders := sharedFolderPairs config deviceConfig }
    | none =>
      some { config := deviceConfig
             extraStats := syncthing.DeviceStats.zero
             connection := (false, syncthing.Connection.zero)
             statusCompletion := []
             folders := sharedFolderPairs config deviceConfig
             inGoingBytesPerSecond := 0
             outGoingBytesPerSecond := 0 }

/-- `app.updateDeviceViewModelConfigs` (app.go:580): rebuild the device
list from a config snapshot; devices absent from the snapshot are
dropped, and this device's own entry is excluded. -/
def updateDeviceViewModelConfigs (config : syncthing.Config)
    (current : List DeviceViewModel) (thisDeviceID : String) :
    List DeviceViewModel :=
  config.devices.filterMap (deviceConfigMerge config current thisDeviceID)

/-- The state part of the `StateChangedEventData` case of `app.Update`
(app.go:359-365): when a folder enters the `"scanning"` state the handler
calls `updateFolderScan` with the zero `FolderScanProgressEventData{}`
(whose `Folder` field is the empty string).  The `from = "scanning" ∧
to = "idle"` branch only issues a stats refetch command and does not touch
the projection state. -/
def applyStateChanged (folders : List FolderViewModel)
    (data : syncthing.StateChangedEventData) : List FolderViewModel :=
  if data.toState = "scanning" then
    updateFolderScan folders syncthing.FolderScanProgressEventData.zero
  else folders

/-- The `PendingDevicesChangedEventData` case of `app.Update`
(app.go:379-390): upsert every entry of `Added` (stamped with the event
time), then delete every entry of `Removed`. -/
def applyPendingDevicesChanged (pending : List (String × PendingDevice))
    (data : syncthing.PendingDevicesChangedEventData) (eventTime : Int) :
    List (String × PendingDevice) :=
  let afterAdded := data.added.foldl
    (fun acc a => mapSet acc a.deviceID
      { address := a.address, deviceID := a.deviceID, name := a.name
        atNs := eventTime }) pending
  data.removed.foldl (fun acc r => mapDel acc r.deviceID) afterAdded

end app

/-! ## Events and the decode loop (`src/unnamed/part_001:1094-1218`) -/

namespace app

/-- `syncthing.Event[T]` (the `Type` tag string is represented by the
payload constructor of `T` below, exactly mirroring the tag switch of
`fetchEvents`). -/
structure Event (α : Type) where
  id : Int
  globalID : Int
  time : Int
  data : α
  deriving DecidableEq, Repr

/-- The raw `(type, json.RawMessage)` payload of one fetched event.  Each
known-tag constructor carries `Option` of the typed payload: `some d`
models a payload that `json.Unmarshal` parses to `d`, `none` a payload
that fails to parse against the shape expected for that tag.  `unknown`
models an unrecognized type tag with its opaque raw payload. -/
inductive RawEventData : Type where
  | folderSummary : Option syncthing.FolderSummaryEventData → RawEventData
  | configSaved : Option syncthing.Config → RawEventData
  | folderScanProgress :
      Option syncthing.FolderScanProgressEventData → RawEventData
  | stateChanged : Option syncthing.StateChangedEventData → RawEventData
  | folderCompletion :
      Option syncthing.FolderCompletionEventData → RawEventData
  | pendingDevicesChanged :
      Option syncthing.PendingDevicesChangedEventData → RawEventData
  | unknown : String → RawEventData
  deriving DecidableEq, Repr

/-- One decoded event variant (`syncthing.Event[any]` after the tag
switch of `fetchEvents`). -/
inductive EventData : Type where
  | folderSummary : syncthing.FolderSummaryEventData → EventData
  | configSaved : syncthing.Config → EventData
  | folderScanProgress : syncthing.FolderScanProgressEventData → EventData
  | stateChanged : syncthing.StateChangedEventData → EventData
  | folderCompletion : syncthing.FolderCompletionEventData → EventData
  | pendingDevicesChanged :
      syncthing.PendingDevicesChangedEventData → EventData
  | unknown : String → EventData
  deriving DecidableEq, Repr

/-- The decode loop of `fetchEvents` (part_001:1110-1214), entered after a
successful transport fetch (`err = nil`).  Returns the `parsedEvents`
list and whether the function-level `err` variable is non-nil at the
final `return FetchedEventsMsg{events: parsedEvents, since: since, err: err}`.
For the `FolderSummary`, `ConfigSaved`, `FolderScanProgress` and
`StateChanged` cases a parse failure shadows `err` locally (`err := ...`)
and only skips the event; for the `FolderCompletion` and
`PendingDevicesChanged` cases the parse failure is assigned to the outer
`err` (`err = er`) before `continue`, and nothing ever resets it. -/
def parseEvents : List (Event RawEventData) → List (Event EventData) × Bool
  | [] => ([], false)
  | e :: rest =>
    let tail := parseEvents rest
    match e.data with
    | .folderSummary (some d) =>
      (⟨e.id, e.globalID, e.time, .folderSummary d⟩ :: tail.1, tail.2)
    | .folderSummary none => tail
    | .configSaved (some d) =>
      (⟨e.id, e.globalID, e.time, .configSaved d⟩ :: tail.1, tail.2)
    | .configSaved none => tail
    | .folderScanProgress (some d) =>
      (⟨e.id, e.globalID, e.time, .folderScanProgress d⟩ :: tail.1, tail.2)
    | .folderScanProgress none => tail
    | .stateChanged (some d) =>
      (⟨e.id, e.globalID, e.time, .stateChanged d⟩ :: tail.1, tail.2)
    | .stateChanged none => tail
    | .folderCompletion (some d) =>
      (⟨e.id, e.globalID, e.time, .folderCompletion d⟩ :: tail.1, tail.2)
    | .folderCompletion none => (tail.1, true)
    | .pendingDevicesChanged (some d) =>
      (⟨e.id, e.globalID, e.time, .pendingDevicesChanged d⟩ :: tail.1,
        tail.2)
    | .pendingDevicesChanged none => (tail.1, true)
    | .unknown raw =>
      (⟨e.id, e.globalID, e.time, .unknown raw⟩ :: tail.1, tail.2)

/-- `app.FetchedEventsMsg`: the message delivered to `Update`.
`isError` models `err ≠ nil` (transport failure, or a sticky decode
error, see `parseEvents`). -/
structure FetchedEventsMsg where
  events : List (Event EventData)
  since : Int
  isError : Bool
  deriving DecidableEq, Repr

/-- The per-event application of the `FetchedEventsMsg` loop body of
`app.Update` (app.go:349-394), state part only (the `StateChanged`
`scanning → idle` transition and the loop tail additionally emit fetch
commands, which carry no projection state). -/
def applyEventData (st : ProjectionState) (e : Event EventData) :
    ProjectionState :=
  match e.data with
  | .folderSummary d =>
    { st with folders := updateFolderStatus st.folders (d.folder, d.summary) }
  | .configSaved c =>
    { st with
      folders := updateFolderViewModelConfigs c st.folders st.thisDeviceID
      devices := updateDeviceViewModelConfigs c st.devices st.thisDeviceID }
  | .folderScanProgress d =>
    { st with folders := updateFolderScan st.folders d }
  | .stateChanged d =>
    { st with folders := applyStateChanged st.folders d }
  | .folderCompletion d =>
    let sc : syncthing.StatusCompletion :=
      { completion := d.completion, globalBytes := d.globalBytes
        globalItems := d.globalItems, needBytes := d.needBytes
        needItems := d.needItems, needDeletes := d.needDeletes
        remoteState := d.remoteState, sequence := d.sequence }
    { st with devices :=
        updateDeviceStatusCompletion st.devices d.device d.folder sc }
  | .pendingDevicesChanged d =>
    { st with pendingDevices :=
        applyPendingDevicesChanged st.pendingDevices d e.time }
  | .unknown _ => st

/-- Events of one batch are applied in order (app.go:349). -/
def applyEventBatch (st : ProjectionState)
    (events : List (Event EventData)) : ProjectionState :=
  events.foldl applyEventData st

/-- The `since` value of the next request issued by the
`FetchedEventsMsg` success branch (app.go:338-341):
`since := 0; if len(msg.events) > 0 { since = msg.events[len-1].ID }`. -/
def nextSinceOfBatch (events : List (Event EventData)) : Int :=
  match events.getLast? with
  | some e => e.id
  | none => 0

/-- Outcome of one `FetchedEventsMsg` delivery: whether the batch was
applied to the projection, the `since` of the next issued request, and
whether that request is delayed (`wait(time.Second, ...)`). -/
structure EventLoopOutcome where
  batchApplied : Bool
  nextSince : Int
  delayedRetry : Bool
  deriving DecidableEq, Repr

/-- The `FetchedEventsMsg` case of `app.Update` (app.go:331-396).  On
`err ≠ nil` the same cursor is re-requested after a one second delay and
nothing is applied; on the first request (`msg.since == 0`) the batch is
discarded and its tip becomes the next cursor; otherwise the batch is
applied and the next cursor is `nextSinceOfBatch`. -/
def updateFetchedEvents (st : ProjectionState) (msg : FetchedEventsMsg) :
    ProjectionState × EventLoopOutcome :=
  if msg.isError then (st, ⟨false, msg.since, true⟩)
  else if msg.since = 0 then (st, ⟨false, nextSinceOfBatch msg.events, false⟩)
  else (applyEventBatch st msg.events,
    ⟨true, nextSinceOfBatch msg.events, false⟩)

/-- The successive `since` values of the requests issued by the event
cursor loop, given the start cursor and an oracle list of
`(decoded batch, transport/decode error?)` responses. -/
def sinceTrace (st : ProjectionState) (s0 : Int) :
    List (List (Event EventData) × Bool) → List Int
  | [] => [s0]
  | (batch, e) :: rest =>
    let r := updateFetchedEvents st ⟨batch, s0, e⟩
    s0 :: sinceTrace r.1 r.2.nextSince rest

/-! ## Completion fetch (`src/unnamed/part_001:1295-1356`, app.go:494-507) -/

/-- The relevant outcomes of the HTTP GET in `fetchCompletion`:
a transport/read/unmarshal failure, a 404 status, or a parsed body. -/
inductive CompletionHttpResult : Type where
  | failure : CompletionHttpResult
  | notFound : CompletionHttpResult
  | ok : syncthing.StatusCompletion → CompletionHttpResult
  deriving DecidableEq, Repr

/-- `app.FetchedCompletion` message fields. -/
structure FetchedCompletionMsg where
  deviceID : String
  folderID : String
  completion : syncthing.StatusCompletion
  hasCompletion : Bool
  isError : Bool
  deriving DecidableEq, Repr

/-- `fetchCompletion` (part_001:1295): a 404 returns the message with
neither `err` nor `completion` set (`hasCompletion = false`); errors set
`err`; a parsed body sets `completion` and `hasCompletion = true`. -/
def fetchCompletionResult (deviceID folderID : String) :
    CompletionHttpResult → FetchedCompletionMsg
  | .failure =>
    { deviceID := deviceID, folderID := folderID
      completion := syncthing.StatusCompletion.zero
      hasCompletion := false, isError := true }
  | .notFound =>
    { deviceID := deviceID, folderID := folderID
      completion := syncthing.StatusCompletion.zero
      hasCompletion := false, isError := false }
  | .ok body =>
    { deviceID := deviceID, folderID := folderID, completion := body
      hasCompletion := true, isError := false }

/-- The non-error `FetchedCompletion` case of `app.Update`
(app.go:501-505): with a completion, upsert it; without one (the 404
path), upsert the zero `syncthing.StatusCompletion{}`. -/
def applyFetchedCompletion (devices : List DeviceViewModel)
    (deviceID folderID : String)
    (completion : syncthing.StatusCompletion) (hasCompletion : Bool) :
    List DeviceViewModel :=
  if hasCompletion then
    updateDeviceStatusCompletion devices deviceID folderID completion
  else
    updateDeviceStatusCompletion devices deviceID folderID
      syncthing.StatusCompletion.zero

end app

/-! ## Status derivation (`src/app/app.go:1384-1570`) -/

namespace app

/-- `app.FolderStatus` (the status enumeration, app.go:1466-1481). -/
inductive FolderStatusKind : Type where
  | idle
  | syncPrepare
  | syncing
  | error
  | paused
  | unshared
  | scanning
  | outOfSync
  | failedItems
  | localAdditions
  | localUnencrypted
  | unknown
  deriving DecidableEq, Repr

/-- `app.folderStatus` (app.go:1483-1523), translated clause by clause
from the source's early-return chain.  Go `len(s) > 0` on a string is
`s.length ≠ 0`. -/
def folderStatus (folder : FolderViewModel) : FolderStatusKind :=
  if folder.status.state = "syncing" then .syncing
  else if folder.status.state = "sync-preparing" then .syncPrepare
  else if folder.status.state = "scanning" then .scanning
  else if folder.status.invalid.length ≠ 0 ∨ folder.status.error.length ≠ 0
    then .error
  else if folder.config.paused then .paused
  else if folder.config.devices.length = 1 then .unshared
  else if folder.status.needTotalItems > 0 then .outOfSync
  else if (folder.config.type = "receiveonly" ∨
      folder.config.type = "receiveencrypted") ∧
      folder.status.receiveOnlyTotalItems > 0 then
    (if folder.config.type = "receiveonly" then .localAdditions
     else .localUnencrypted)
  else if folder.status.state = "idle" then .idle
  else .unknown

/-- The folder-status decision written from the specification's ordered
priority list (spec §4.4, items 1-10), for comparison with the code's
`folderStatus`. -/
def folderStatusSpec (folder : FolderViewModel) : FolderStatusKind :=
  if folder.status.state = "syncing" then .syncing
  else if folder.status.state = "sync-preparing" then .syncPrepare
  else if folder.status.state = "scanning" then .scanning
  else if folder.status.invalid ≠ "" ∨ folder.status.error ≠ "" then .error
  else if folder.config.paused then .paused
  else if folder.config.devices.length = 1 then .unshared
  else if folder.status.needTotalItems > 0 then .outOfSync
  else if (folder.config.type = "receiveonly" ∨
      folder.config.type = "receiveencrypted") ∧
      folder.status.receiveOnlyTotalItems > 0 then
    (if folder.config.type = "receiveonly" then .localAdditions
     else .localUnencrypted)
  else if folder.status.state = "idle" then .idle
  else .unknown

/-- `app.GroupedCompletion` (app.go:1384).  The Go `Completion` field is
a `float64` produced by `math.Floor(100 * (1 - NeedBytes/TotalBytes))`;
it is modelled as `Option Int` in exact arithmetic: `none` is the
NaN/±Inf result of a zero `TotalBytes` (which, like in Go, compares
unequal to 100), `some z` the exact floor otherwise. -/
structure GroupedCompletion where
  totalBytes : Int
  needBytes : Int
  needItems : Int
  needDeletes : Int
  completion : Option Int
  deriving DecidableEq, Repr

/-- `app.groupCompletion` (app.go:1392): sum the per-folder completion
entries of a device, then derive the floored completion percentage.
Go iterates the map in unspecified order; the sums are
order-independent, so folding over the association list is faithful. -/
def groupCompletion (arg : List (String × syncthing.StatusCompletion)) :
    GroupedCompletion :=
  let init : GroupedCompletion :=
    { totalBytes := 0, needBytes := 0, needItems := 0, needDeletes := 0
      completion := none }
  let g := arg.foldl
    (fun (g : GroupedCompletion) c =>
      { g with
        needBytes := g.needBytes + c.2.needBytes
        needItems := g.needItems + c.2.needItems
        needDeletes := g.needDeletes + c.2.needDeletes
        totalBytes := g.totalBytes + c.2.globalBytes })
    init
  { g with completion :=
      if g.totalBytes = 0 then none
      else some ⌊(100 : ℚ) * (1 - (g.needBytes : ℚ) / (g.totalBytes : ℚ))⌋ }

/-- `app.DeviceStatus` (app.go:1525-1537). -/
inductive DeviceStatusKind : Type where
  | disconnected
  | disconnectedInactive
  | inSync
  | paused
  | unusedDisconnected
  | unusedInSync
  | unusedPaused
  | syncing
  | unknown
  deriving DecidableEq, Repr

/-- Seven days in nanoseconds: the Go test is
`currentTime.Sub(lastSeen).Hours() / 24 > 7`, which in exact arithmetic
is `(currentTime - lastSeen) > 7 * 24 * 3600 * 10^9 ns`. -/
def sevenDaysNs : Int := 604800000000000

/-- `app.deviceStatus` (app.go:1539-1570), translated clause by clause. -/
def deviceStatus (device : DeviceViewModel) (currentTime : Int) :
    DeviceStatusKind :=
  let isUnused := device.folders.length = 0
  if device.connection.1 = false then .unknown
  else if device.config.paused then
    (if isUnused then .unusedPaused else .paused)
  else if device.connection.2.connected then
    let insync : DeviceStatusKind := if isUnused then .unusedInSync else .inSync
    let g := groupCompletion device.statusCompletion
    let needsSomething :=
      g.needBytes ≠ 0 ∨ g.needItems ≠ 0 ∨ g.needDeletes ≠ 0
    if g.completion = some 100 ∨ ¬needsSomething then insync else .syncing
  else
    if ¬isUnused ∧ currentTime - device.extraStats.lastSeen > sevenDaysNs
      then .disconnectedInactive
    else if isUnused then .unusedDisconnected else .disconnected

/-! ## Rate calculator (`src/app/app.go:1720-1737`) -/

/-- `app.TotalBytes`: a timestamped cumulative byte counter.  The Go
field `at` (`time.Time`) is modelled as `Int` nanoseconds. -/
structure TotalBytes where
  bytes : Int
  atNs : Int
  deriving DecidableEq, Repr

/-- `app.byteThroughputInSeconds` (app.go:1725).  Go's
`int64(after.at.Sub(before.at).Seconds())` truncates the elapsed time
toward zero to whole seconds, modelled by `Int.tdiv _ 1000000000`; the
final `deltaBytes / deltaTime` is Go `int64` division, which truncates
toward zero (`Int.tdiv`). -/
def byteThroughputInSeconds (before afterSample : TotalBytes) : Int :=
  if before.bytes = 0 then 0
  else
    let deltaBytes := afterSample.bytes - before.bytes
    let deltaTime := Int.tdiv (afterSample.atNs - before.atNs) 1000000000
    if deltaTime = 0 then 0
    else Int.tdiv deltaBytes deltaTime

/-! ## Short identification (`src/app/app.go:1461-1464`) -/

/-- `strings.Index(id, "-")`: byte index of the first dash, `-1` if
absent (device IDs are ASCII, so byte and character indices agree). -/
def stringsIndexDash : List Char → Int
  | [] => -1
  | c :: rest =>
    if c = '-' then 0
    else
      let r := stringsIndexDash rest
      if r = -1 then -1 else r + 1

/-- `app.shortIdentification` (app.go:1461):
`strings.ToUpper(id[0:strings.Index(id, "-")])`.  When the id contains no
dash, `strings.Index` returns `-1` and the slice expression `id[0:-1]`
panics with a slice-bounds-out-of-range runtime error, modelled as
`none`.  `strings.ToUpper` on the ASCII ids is `Char.toUpper` per
character. -/
def shortIdentification (id : List Char) : Option (List Char) :=
  let dashIndex := stringsIndexDash id
  if dashIndex < 0 then none
  else some ((id.take dashIndex.toNat).map Char.toUpper)

end app

/-! ## Helper lemmas about the Go map model -/

theorem mapGet_mapSet_self {β : Type} (m : List (String × β)) (k : String)
    (v : β) : mapGet (mapSet m k v) k = some v := by
  induction m with
  | nil => simp [mapSet, mapGet]
  | cons p rest ih =>
    by_cases h : p.1 = k
    · simp [mapSet, mapGet, h]
    · simpa [mapSet, mapGet, h] using ih

theorem mapSet_mapSet {β : Type} (m : List (String × β)) (k : String)
    (v w : β) : mapSet (mapSet m k v) k w = mapSet m k w := by
  induction m with
  | nil => simp [mapSet]
  | cons p rest ih =>
    by_cases h : p.1 = k
    · simp [mapSet, h]
    · simp [mapSet, h, ih]

theorem mapHasKey_cons {β : Type} {p : String × β}
    {rest : List (String × β)} {j : String} :
    mapHasKey (p :: rest) j ↔ p.1 = j ∨ mapHasKey rest j := by
  constructor
  · rintro ⟨q, hq, rfl⟩
    rcases List.mem_cons.mp hq with h | h
    · exact Or.inl (by rw [h])
    · exact Or.inr ⟨q, h, rfl⟩
  · rintro (h | ⟨q, hq, rfl⟩)
    · exact ⟨p, List.mem_cons_self _ _, h⟩
    · exact ⟨q, List.mem_cons_of_mem _ hq, rfl⟩

theorem mapSet_cons_pos {β : Type} {p : String × β} {k : String}
    (rest : List (String × β)) (h : p.1 = k) (v : β) :
    mapSet (p :: rest) k v = (k, v) :: rest := by
  cases p; simp only [mapSet, if_pos h]

theorem mapSet_cons_neg {β : Type} {p : String × β} {k : String}
    (rest : List (String × β)) (h : ¬ p.1 = k) (v : β) :
    mapSet (p :: rest) k v = p :: mapSet rest k v := by
  cases p; simp only [mapSet, if_neg h]

theorem mapDel_cons_pos {β : Type} {p : String × β} {k : String}
    (rest : List (String × β)) (h : p.1 = k) :
    mapDel (p :: rest) k = mapDel rest k := by
  simp [mapDel, List.filter_cons, h]

theorem mapDel_cons_neg {β : Type} {p : String × β} {k : String}
    (rest : List (String × β)) (h : ¬ p.1 = k) :
    mapDel (p :: rest) k = p :: mapDel rest k := by
  simp [mapDel, List.filter_cons, h]

theorem mapHasKey_mapSet_of {β : Type} {m : List (String × β)} {j : String}
    (k : String) (v : β) (h : mapHasKey m j) :
    mapHasKey (mapSet m k v) j := by
  induction m with
  | nil => rcases h with ⟨q, hq, -⟩; exact absurd hq (List.not_mem_nil q)
  | cons p rest ih =>
    rcases mapHasKey_cons.mp h with h1 | h1
    · by_cases hk : p.1 = k
      · rw [mapSet_cons_pos rest hk]
        exact mapHasKey_cons.mpr (Or.inl (hk.symm.trans h1))
      · rw [mapSet_cons_neg rest hk]
        exact mapHasKey_cons.mpr (Or.inl h1)
    · by_cases hk : p.1 = k
      · rw [mapSet_cons_pos rest hk]
        exact mapHasKey_cons.mpr (Or.inr h1)
      · rw [mapSet_cons_neg rest hk]
        exact mapHasKey_cons.mpr (Or.inr (ih h1))

theorem mapSet_comm_of_mem {β : Type} {m : List (String × β)} {j k : String}
    (hne : j ≠ k) (h : mapHasKey m j) (v w : β) :
    mapSet (mapSet m k v) j w = mapSet (mapSet m j w) k v := by
  induction m with
  | nil => rcases h with ⟨q, hq, -⟩; exact absurd hq (List.not_mem_nil q)
  | cons p rest ih =>
    by_cases hpk : p.1 = k
    · have hpj : ¬ p.1 = j := fun hh => hne (hh.symm.trans hpk)
      rw [mapSet_cons_pos rest hpk, mapSet_cons_neg rest hpj,
        mapSet_cons_neg rest (show ¬ (k, v).1 = j from Ne.symm hne),
        mapSet_cons_pos (mapSet rest j w) hpk]
    · by_cases hpj : p.1 = j
      · rw [mapSet_cons_neg rest hpk, mapSet_cons_pos rest hpj,
          mapSet_cons_pos (mapSet rest k v) hpj,
          mapSet_cons_neg rest (show ¬ (j, w).1 = k from hne) v]
      · have h' : mapHasKey rest j := by
          rcases mapHasKey_cons.mp h with h1 | h1
          · exact absurd h1 hpj
          · exact h1
        rw [mapSet_cons_neg rest hpk, mapSet_cons_neg (mapSet rest k v) hpj,
          mapSet_cons_neg rest hpj, mapSet_cons_neg (mapSet rest j w) hpk,
          ih h']

theorem mapDel_mapSet_of_ne {β : Type} (m : List (String × β))
    {k j : String} (hne : k ≠ j) (v : β) :
    mapDel (mapSet m k v) j = mapSet (mapDel m j) k v := by
  induction m with
  | nil => simp [mapSet, mapDel, List.filter, hne]
  | cons p rest ih =>
    by_cases hpk : p.1 = k
    · have hpj : ¬ p.1 = j := fun hh => hne (hpk.symm.trans hh)
      rw [mapSet_cons_pos rest hpk,
        mapDel_cons_neg rest (show ¬ (k, v).1 = j from hne),
        mapDel_cons_neg rest hpj, mapSet_cons_pos (mapDel rest j) hpk]
    · by_cases hpj : p.1 = j
      · rw [mapSet_cons_neg rest hpk, mapDel_cons_pos (mapSet rest k v) hpj,
          mapDel_cons_pos rest hpj, ih]
      · rw [mapSet_cons_neg rest hpk, mapDel_cons_neg (mapSet rest k v) hpj,
          mapDel_cons_neg rest hpj, mapSet_cons_neg (mapDel rest j) hpk, ih]

theorem mapDel_mapSet_self {β : Type} (m : List (String × β)) (k : String)
    (v : β) : mapDel (mapSet m k v) k = mapDel m k := by
  induction m with
  | nil => simp [mapSet, mapDel, List.filter]
  | cons p rest ih =>
    by_cases hpk : p.1 = k
    · rw [mapSet_cons_pos rest hpk,
        mapDel_cons_pos rest (show (k, v).1 = k from rfl),
        mapDel_cons_pos rest hpk]
    · rw [mapSet_cons_neg rest hpk, mapDel_cons_neg (mapSet rest k v) hpk,
        mapDel_cons_neg rest hpk, ih]

theorem mapDel_mapDel {β : Type} (m : List (String × β)) (j k : String) :
    mapDel (mapDel m k) j = mapDel (mapDel m j) k := by
  simp only [mapDel, List.filter_filter]
  exact List.filter_congr fun p _ => by
    cases h1 : decide (¬ p.1 = k) <;> cases h2 : decide (¬ p.1 = j) <;> simp_all

theorem mapDel_idem {β : Type} (m : List (String × β)) (j : String) :
    mapDel (mapDel m j) j = mapDel m j := by
  simp only [mapDel, List.filter_filter]
  exact List.filter_congr fun p _ => by
    cases h1 : decide (¬ p.1 = j) <;> simp_all

theorem mapHasKey_mapSet_self {β : Type} (m : List (String × β))
    (k : String) (v : β) : mapHasKey (mapSet m k v) k := by
  induction m with
  | nil => exact ⟨(k, v), List.mem_singleton.mpr rfl, rfl⟩
  | cons p rest ih =>
    by_cases hpk : p.1 = k
    · rw [mapSet_cons_pos rest hpk]
      exact mapHasKey_cons.mpr (Or.inl rfl)
    · rw [mapSet_cons_neg rest hpk]
      exact mapHasKey_cons.mpr (Or.inr ih)

/-- A fold of Go map assignments (the shape of the `Added` loop of the
pending-devices event handler). -/
def addList {α β : Type} (key : α → String) (val : α → β)
    (as : List α) (m : List (String × β)) : List (String × β) :=
  as.foldl (fun acc a => mapSet acc (key a) (val a)) m

/-- A fold of Go map deletions (the shape of the `Removed` loop of the
pending-devices event handler). -/
def delList {β : Type} (ks : List String) (m : List (String × β)) :
    List (String × β) :=
  ks.foldl (fun acc k => mapDel acc k) m

theorem mapHasKey_addList_of {α β : Type} {key : α → String} {val : α → β}
    {j : String} (as : List α) :
    ∀ m : List (String × β), mapHasKey m j →
      mapHasKey (addList key val as m) j := by
  induction as with
  | nil => exact fun m h => h
  | cons a tl ih =>
    intro m h
    exact ih (mapSet m (key a) (val a)) (mapHasKey_mapSet_of _ _ h)

theorem mapHasKey_addList_added {α β : Type} {key : α → String}
    {val : α → β} {a : α} (as : List α) :
    ∀ m : List (String × β), a ∈ as →
      mapHasKey (addList key val as m) (key a) := by
  induction as with
  | nil => exact fun m h => absurd h (List.not_mem_nil a)
  | cons b tl ih =>
    intro m h
    rcases List.mem_cons.mp h with h1 | h1
    · subst h1
      exact mapHasKey_addList_of tl _ (mapHasKey_mapSet_self m _ _)
    · exact ih _ h1

theorem mapSet_addList_absorb {α β : Type} {key : α → String} {val : α → β}
    (as : List α) :
    ∀ (m : List (String × β)) (k : String) (v : β),
      (∀ a ∈ as, mapHasKey m (key a)) →
      mapSet (addList key val as (mapSet m k v)) k v =
        mapSet (addList key val as m) k v := by
  induction as with
  | nil => exact fun m k v _ => mapSet_mapSet m k v v
  | cons a tl ih =>
    intro m k v hmem
    by_cases hk : key a = k
    · show mapSet (addList key val tl (mapSet (mapSet m k v) (key a) (val a))) k v =
        mapSet (addList key val tl (mapSet m (key a) (val a))) k v
      rw [hk, mapSet_mapSet]
    · show mapSet (addList key val tl (mapSet (mapSet m k v) (key a) (val a))) k v =
        mapSet (addList key val tl (mapSet m (key a) (val a))) k v
      rw [mapSet_comm_of_mem hk (hmem a (List.mem_cons_self a tl)) v (val a)]
      exact ih (mapSet m (key a) (val a)) k v
        (fun b hb => mapHasKey_mapSet_of _ _ (hmem b (List.mem_cons_of_mem a hb)))

theorem addList_idem {α β : Type} {key : α → String} {val : α → β}
    (as : List α) (m : List (String × β)) :
    addList key val as (addList key val as m) = addList key val as m := by
  induction as using List.reverseRecOn generalizing m with
  | nil => rfl
  | append_singleton tl a ih =>
    show addList key val (tl ++ [a]) (addList key val (tl ++ [a]) m) = _
    simp only [addList, List.foldl_append, List.foldl_cons, List.foldl_nil]
    have habs := @mapSet_addList_absorb α β key val tl
      (List.foldl (fun acc b => mapSet acc (key b) (val b)) m tl)
      (key a) (val a)
      (fun b hb => mapHasKey_addList_added tl m hb)
    simp only [addList] at habs
    rw [habs]
    have := ih m
    simp only [addList] at this
    rw [this]

theorem mapDel_mapSet_congr {β : Type} {m1 m2 : List (String × β)}
    {j : String} (k : String) (v : β) (h : mapDel m1 j = mapDel m2 j) :
    mapDel (mapSet m1 k v) j = mapDel (mapSet m2 k v) j := by
  by_cases hk : k = j
  · subst hk
    rw [mapDel_mapSet_self, mapDel_mapSet_self, h]
  · rw [mapDel_mapSet_of_ne m1 hk, mapDel_mapSet_of_ne m2 hk, h]

theorem mapDel_addList_congr {α β : Type} {key : α → String} {val : α → β}
    {j : String} (as : List α) :
    ∀ {m1 m2 : List (String × β)}, mapDel m1 j = mapDel m2 j →
      mapDel (addList key val as m1) j = mapDel (addList key val as m2) j := by
  induction as with
  | nil => exact fun h => h
  | cons a tl ih =>
    intro m1 m2 h
    exact ih (mapDel_mapSet_congr _ _ h)

theorem delList_congr_of_mem {β : Type} {j : String} (ks : List String) :
    ∀ {m1 m2 : List (String × β)}, j ∈ ks → mapDel m1 j = mapDel m2 j →
      delList ks m1 = delList ks m2 := by
  induction ks with
  | nil => exact fun hj _ => absurd hj (List.not_mem_nil j)
  | cons k tl ih =>
    intro m1 m2 hj h
    by_cases hk : k = j
    · subst hk
      show delList tl (mapDel m1 k) = delList tl (mapDel m2 k)
      rw [h]
    · have hj' : j ∈ tl := by
        rcases List.mem_cons.mp hj with h1 | h1
        · exact absurd h1.symm hk
        · exact h1
      show delList tl (mapDel m1 k) = delList tl (mapDel m2 k)
      refine ih hj' ?_
      rw [mapDel_mapDel m1 j k, mapDel_mapDel m2 j k, h]

theorem delList_addList_del {α β : Type} {key : α → String} {val : α → β}
    {ks : List String} (as : List α) (ks0 : List String) :
    ∀ n : List (String × β), (∀ x ∈ ks0, x ∈ ks) →
      delList ks (addList key val as (delList ks0 n)) =
        delList ks (addList key val as n) := by
  induction ks0 with
  | nil => exact fun n _ => rfl
  | cons k tl ih =>
    intro n hsub
    show delList ks (addList key val as (delList tl (mapDel n k))) = _
    rw [ih (mapDel n k) (fun x hx => hsub x (List.mem_cons_of_mem k hx))]
    refine delList_congr_of_mem ks (hsub k (List.mem_cons_self k tl)) ?_
    exact mapDel_addList_congr as (mapDel_idem n k)

/-! ## Idempotence of the projection-store apply operations -/

namespace app

theorem updateFolderStatus_idem (folders : List FolderViewModel)
    (status : String × syncthing.FolderStatus) :
    updateFolderStatus (updateFolderStatus folders status) status =
      updateFolderStatus folders status := by
  unfold updateFolderStatus
  rw [List.map_map]
  refine List.map_congr_left fun f _ => ?_
  by_cases h : f.config.id = status.1 <;> simp [h]

theorem updateFolderScan_idem (folders : List FolderViewModel)
    (sp : syncthing.FolderScanProgressEventData) :
    updateFolderScan (updateFolderScan folders sp) sp =
      updateFolderScan folders sp := by
  unfold updateFolderScan
  rw [List.map_map]
  refine List.map_congr_left fun f _ => ?_
  by_cases h : f.config.id = sp.folder <;> simp [h]

theorem updateFolderStats_idem (folders : List FolderViewModel)
    (sd : List (String × syncthing.FolderStats)) :
    updateFolderStats (updateFolderStats folders sd) sd =
      updateFolderStats folders sd := by
  unfold updateFolderStats
  rw [List.map_map]
  refine List.map_congr_left fun f _ => ?_
  cases h : mapGet sd f.config.id <;> simp [h]

theorem updateDeviceExtraStats_idem (devices : List DeviceViewModel)
    (sd : List (String × syncthing.DeviceStats)) :
    updateDeviceExtraStats (updateDeviceExtraStats devices sd) sd =
      updateDeviceExtraStats devices sd := by
  unfold updateDeviceExtraStats
  rw [List.map_map]
  refine List.map_congr_left fun d _ => ?_
  cases h : mapGet sd d.config.deviceID <;> simp [h]

theorem updateDeviceStatusCompletion_idem (devices : List DeviceViewModel)
    (deviceID folderID : String) (sc : syncthing.StatusCompletion) :
    updateDeviceStatusCompletion
        (updateDeviceStatusCompletion devices deviceID folderID sc)
        deviceID folderID sc =
      updateDeviceStatusCompletion devices deviceID folderID sc := by
  induction devices with
  | nil => rfl
  | cons d rest ih =>
    by_cases h : d.config.deviceID = deviceID
    · simp only [updateDeviceStatusCompletion, if_pos h, mapSet_mapSet]
    · simp only [updateDeviceStatusCompletion, if_neg h, ih]

theorem applyStateChanged_idem (folders : List FolderViewModel)
    (d : syncthing.StateChangedEventData) :
    applyStateChanged (applyStateChanged folders d) d =
      applyStateChanged folders d := by
  unfold applyStateChanged
  by_cases h : d.toState = "scanning"
  · simp [h, updateFolderScan_idem]
  · simp [h]

theorem applyPendingDevicesChanged_eq
    (pending : List (String × PendingDevice))
    (data : syncthing.PendingDevicesChangedEventData) (eventTime : Int) :
    applyPendingDevicesChanged pending data eventTime =
      delList (data.removed.map syncthing.PendingDeviceRemoved.deviceID)
        (addList (fun a => a.deviceID)
          (fun a => { address := a.address, deviceID := a.deviceID
                      name := a.name, atNs := eventTime })
          data.added pending) := by
  unfold applyPendingDevicesChanged delList addList
  rw [List.foldl_map]

theorem applyPendingDevicesChanged_idem
    (pending : List (String × PendingDevice))
    (data : syncthing.PendingDevicesChangedEventData) (eventTime : Int) :
    applyPendingDevicesChanged
        (applyPendingDevicesChanged pending data eventTime) data eventTime =
      applyPendingDevicesChanged pending data eventTime := by
  rw [applyPendingDevicesChanged_eq, applyPendingDevicesChanged_eq]
  rw [delList_addList_del _ _ _ (fun x hx => hx), addList_idem]

end app

namespace app

theorem folderConfigMerge_config (c : syncthing.Config)
    (cur : List FolderViewModel) (tid : String)
    (fc : syncthing.FolderConfig) :
    (folderConfigMerge c cur tid fc).config = fc := by
  unfold folderConfigMerge
  cases h : cur.find? (fun fvm => fc.id = fvm.config.id) <;> simp [h]

theorem folderConfigMerge_found (c : syncthing.Config)
    (cur : List FolderViewModel) (tid : String)
    (fc : syncthing.FolderConfig) (X : FolderViewModel)
    (h : cur.find? (fun fvm => fc.id = fvm.config.id) = some X) :
    folderConfigMerge c cur tid fc =
      { X with
        config := fc
        sharedDevices := sharedDeviceNames c tid fc } := by
  unfold folderConfigMerge
  rw [h]

theorem folderConfigMerge_not_found (c : syncthing.Config)
    (cur : List FolderViewModel) (tid : String)
    (fc : syncthing.FolderConfig)
    (h : cur.find? (fun fvm => fc.id = fvm.config.id) = none) :
    folderConfigMerge c cur tid fc =
      { config := fc, status := syncthing.FolderStatus.zero
        extraStats := syncthing.FolderStats.zero
        scanProgress := syncthing.FolderScanProgressEventData.zero
        sharedDevices := sharedDeviceNames c tid fc } := by
  unfold folderConfigMerge
  rw [h]

theorem folderConfigMerge_idem (c : syncthing.Config)
    (cur : List FolderViewModel) (tid : String)
    {fc : syncthing.FolderConfig} (hfc : fc ∈ c.folders) :
    folderConfigMerge c (c.folders.map (folderConfigMerge c cur tid)) tid fc
      = folderConfigMerge c cur tid fc := by
  have hp : ((fun fvm : FolderViewModel => decide (fc.id = fvm.config.id)) ∘
      folderConfigMerge c cur tid) = fun fc' => decide (fc.id = fc'.id) := by
    funext fc'
    simp [Function.comp, folderConfigMerge_config]
  have hfind :
      (c.folders.map (folderConfigMerge c cur tid)).find?
          (fun fvm => fc.id = fvm.config.id) =
        (c.folders.find? (fun fc' => decide (fc.id = fc'.id))).map
          (folderConfigMerge c cur tid) := by
    rw [List.find?_map, hp]
  have hex : (c.folders.find? (fun fc' => decide (fc.id = fc'.id))).isSome := by
    rw [List.find?_isSome]
    exact ⟨fc, hfc, by simp⟩
  obtain ⟨fc0, hfc0⟩ := Option.isSome_iff_exists.mp hex
  have hid : fc.id = fc0.id := by
    have h := List.find?_some hfc0
    simpa using h
  have h1 : (c.folders.map (folderConfigMerge c cur tid)).find?
      (fun fvm => fc.id = fvm.config.id) =
        some (folderConfigMerge c cur tid fc0) := by
    rw [hfind, hfc0]
    rfl
  rw [folderConfigMerge_found c _ tid fc _ h1]
  have hpred0 : (fun fvm : FolderViewModel => decide (fc0.id = fvm.config.id))
      = fun fvm : FolderViewModel => decide (fc.id = fvm.config.id) := by
    rw [hid]
  cases hcur : cur.find? (fun fvm => fc.id = fvm.config.id) with
  | some X =>
    have h2 : cur.find? (fun fvm => fc0.id = fvm.config.id) = some X := by
      show cur.find? (fun fvm => decide (fc0.id = fvm.config.id)) = some X
      rw [hpred0]
      exact hcur
    rw [folderConfigMerge_found c cur tid fc0 X h2,
      folderConfigMerge_found c cur tid fc X hcur]
  | none =>
    have h2 : cur.find? (fun fvm => fc0.id = fvm.config.id) = none := by
      show cur.find? (fun fvm => decide (fc0.id = fvm.config.id)) = none
      rw [hpred0]
      exact hcur
    rw [folderConfigMerge_not_found c cur tid fc0 h2,
      folderConfigMerge_not_found c cur tid fc hcur]

theorem updateFolderViewModelConfigs_idem (c : syncthing.Config)
    (cur : List FolderViewModel) (tid : String) :
    updateFolderViewModelConfigs c
        (updateFolderViewModelConfigs c cur tid) tid =
      updateFolderViewModelConfigs c cur tid := by
  unfold updateFolderViewModelConfigs
  exact List.map_congr_left fun fc hfc => folderConfigMerge_idem c cur tid hfc

theorem deviceConfigMerge_self (c : syncthing.Config)
    (cur : List DeviceViewModel) {tid : String}
    {dc : syncthing.DeviceConfig} (h : tid = dc.deviceID) :
    deviceConfigMerge c cur tid dc = none := by
  unfold deviceConfigMerge
  rw [if_pos h]

theorem deviceConfigMerge_found (c : syncthing.Config)
    (cur : List DeviceViewModel) {tid : String}
    {dc : syncthing.DeviceConfig} (X : DeviceViewModel)
    (htid : ¬ tid = dc.deviceID)
    (h : cur.find? (fun dvm => dc.deviceID = dvm.config.deviceID) = some X) :
    deviceConfigMerge c cur tid dc =
      some { X with
             config := dc
             folders := sharedFolderPairs c dc } := by
  unfold deviceConfigMerge
  rw [if_neg htid, h]

theorem deviceConfigMerge_not_found (c : syncthing.Config)
    (cur : List DeviceViewModel) {tid : String}
    {dc : syncthing.DeviceConfig} (htid : ¬ tid = dc.deviceID)
    (h : cur.find? (fun dvm => dc.deviceID = dvm.config.deviceID) = none) :
    deviceConfigMerge c cur tid dc =
      some { config := dc
             extraStats := syncthing.DeviceStats.zero
             connection := (false, syncthing.Connection.zero)
             statusCompletion := []
             folders := sharedFolderPairs c dc
             inGoingBytesPerSecond := 0
             outGoingBytesPerSecond := 0 } := by
  unfold deviceConfigMerge
  rw [if_neg htid, h]

theorem deviceConfigMerge_config (c : syncthing.Config)
    (cur : List DeviceViewModel) (tid : String)
    {dc : syncthing.DeviceConfig} {dvm : DeviceViewModel}
    (h : deviceConfigMerge c cur tid dc = some dvm) : dvm.config = dc := by
  by_cases htid : tid = dc.deviceID
  · rw [deviceConfigMerge_self c cur htid] at h
    exact absurd h (by simp)
  · cases hcur : cur.find? (fun dvm => dc.deviceID = dvm.config.deviceID) with
    | some X =>
      rw [deviceConfigMerge_found c cur X htid hcur] at h
      injection h with h'
      rw [← h']
    | none =>
      rw [deviceConfigMerge_not_found c cur htid hcur] at h
      injection h with h'
      rw [← h']

theorem find?_filterMap_deviceMerge (c : syncthing.Config)
    (cur : List DeviceViewModel) (tid : String) (K : String) :
    ∀ l : List syncthing.DeviceConfig,
      (l.filterMap (deviceConfigMerge c cur tid)).find?
          (fun dvm => K = dvm.config.deviceID) =
        (l.find? (fun dc => !decide (tid = dc.deviceID) &&
            decide (K = dc.deviceID))).bind (deviceConfigMerge c cur tid) := by
  intro l
  induction l with
  | nil => rfl
  | cons dc tl ih =>
    by_cases htid : tid = dc.deviceID
    · rw [List.filterMap_cons_none (deviceConfigMerge_self c cur htid),
        List.find?_cons_of_neg _ (by simp [htid]), ih]
    · have hsome : ∃ dvm, deviceConfigMerge c cur tid dc = some dvm := by
        cases hcur : cur.find? (fun dvm => dc.deviceID = dvm.config.deviceID) with
        | some X => exact ⟨_, deviceConfigMerge_found c cur X htid hcur⟩
        | none => exact ⟨_, deviceConfigMerge_not_found c cur htid hcur⟩
      obtain ⟨dvm, hdvm⟩ := hsome
      have hcfg : dvm.config = dc := deviceConfigMerge_config c cur tid hdvm
      rw [List.filterMap_cons_some hdvm]
      by_cases hK : K = dc.deviceID
      · rw [List.find?_cons_of_pos _ (by simp [hcfg, hK]),
          List.find?_cons_of_pos _ (by simp [htid, hK])]
        simp [hdvm]
      · rw [List.find?_cons_of_neg _ (by simp [hcfg, hK]),
          List.find?_cons_of_neg _ (by simp [hK]), ih]

theorem filterMap_congr_mem {α β : Type} {f g : α → Option β} :
    ∀ l : List α, (∀ a ∈ l, f a = g a) → l.filterMap f = l.filterMap g := by
  intro l
  induction l with
  | nil => exact fun _ => rfl
  | cons a tl ih =>
    intro h
    rw [List.filterMap_cons, List.filterMap_cons, h a (List.mem_cons_self a tl)]
    cases g a <;> rw [ih (fun b hb => h b (List.mem_cons_of_mem a hb))]

theorem deviceConfigMerge_idem (c : syncthing.Config)
    (cur : List DeviceViewModel) (tid : String)
    {dc : syncthing.DeviceConfig} (hdc : dc ∈ c.devices) :
    deviceConfigMerge c
        (c.devices.filterMap (deviceConfigMerge c cur tid)) tid dc
      = deviceConfigMerge c cur tid dc := by
  by_cases htid : tid = dc.deviceID
  · rw [deviceConfigMerge_self c _ htid, deviceConfigMerge_self c cur htid]
  · have hex : (c.devices.find? (fun dc' => !decide (tid = dc'.deviceID) &&
        decide (dc.deviceID = dc'.deviceID))).isSome := by
      rw [List.find?_isSome]
      exact ⟨dc, hdc, by simp [htid]⟩
    obtain ⟨dc0, hdc0⟩ := Option.isSome_iff_exists.mp hex
    have hprops := List.find?_some hdc0
    have htid0 : ¬ tid = dc0.deviceID := by
      by_cases h0 : tid = dc0.deviceID
      · simp [h0] at hprops
      · exact h0
    have hid : dc.deviceID = dc0.deviceID := by
      by_cases h0 : dc.deviceID = dc0.deviceID
      · exact h0
      · simp [h0] at hprops
    have h1 : (c.devices.filterMap (deviceConfigMerge c cur tid)).find?
        (fun dvm => dc.deviceID = dvm.config.deviceID) =
          deviceConfigMerge c cur tid dc0 := by
      rw [find?_filterMap_deviceMerge, hdc0]
      rfl
    have hpred0 : (fun dvm : DeviceViewModel =>
        decide (dc0.deviceID = dvm.config.deviceID))
        = fun dvm : DeviceViewModel =>
            decide (dc.deviceID = dvm.config.deviceID) := by
      rw [hid]
    cases hcur : cur.find? (fun dvm => dc.deviceID = dvm.config.deviceID) with
    | some X =>
      have h2 : cur.find? (fun dvm => dc0.deviceID = dvm.config.deviceID)
          = some X := by
        show cur.find?
          (fun dvm => decide (dc0.deviceID = dvm.config.deviceID)) = some X
        rw [hpred0]
        exact hcur
      have h3 := deviceConfigMerge_found c cur X htid0 h2
      rw [deviceConfigMerge_found c _
          { X with config := dc0, folders := sharedFolderPairs c dc0 }
          htid (h1.trans h3),
        deviceConfigMerge_found c cur X htid hcur]
    | none =>
      have h2 : cur.find? (fun dvm => dc0.deviceID = dvm.config.deviceID)
          = none := by
        show cur.find?
          (fun dvm => decide (dc0.deviceID = dvm.config.deviceID)) = none
        rw [hpred0]
        exact hcur
      have h3 := deviceConfigMerge_not_found c cur htid0 h2
      rw [deviceConfigMerge_found c _ _ htid (h1.trans h3),
        deviceConfigMerge_not_found c cur htid hcur]

theorem updateDeviceViewModelConfigs_idem (c : syncthing.Config)
    (cur : List DeviceViewModel) (tid : String) :
    updateDeviceViewModelConfigs c
        (updateDeviceViewModelConfigs c cur tid) tid =
      updateDeviceViewModelConfigs c cur tid := by
  unfold updateDeviceViewModelConfigs
  exact filterMap_congr_mem c.devices
    (fun dc hdc => deviceConfigMerge_idem c cur tid hdc)

end app

namespace app

theorem applyFetchedCompletion_idem (devices : List DeviceViewModel)
    (deviceID folderID : String) (completion : syncthing.StatusCompletion)
    (hasCompletion : Bool) :
    applyFetchedCompletion
        (applyFetchedCompletion devices deviceID folderID completion
          hasCompletion)
        deviceID folderID completion hasCompletion =
      applyFetchedCompletion devices deviceID folderID completion
        hasCompletion := by
  unfold applyFetchedCompletion
  cases hasCompletion <;> simp [updateDeviceStatusCompletion_idem]

theorem applyEventData_idem (st : ProjectionState) (e : Event EventData) :
    applyEventData (applyEventData st e) e = applyEventData st e := by
  cases e with
  | mk id globalID time data =>
    cases data with
    | folderSummary d =>
      simp [applyEventData, updateFolderStatus_idem]
    | configSaved c =>
      simp [applyEventData, updateFolderViewModelConfigs_idem,
        updateDeviceViewModelConfigs_idem]
    | folderScanProgress d =>
      simp [applyEventData, updateFolderScan_idem]
    | stateChanged d =>
      simp [applyEventData, applyStateChanged_idem]
    | folderCompletion d =>
      simp [applyEventData, updateDeviceStatusCompletion_idem]
    | pendingDevicesChanged d =>
      simp [applyEventData, applyPendingDevicesChanged_idem]
    | unknown raw =>
      simp [applyEventData]

/-! ## Characterization of the completion percentage test -/

theorem groupCompletion_fields (arg : List (String × syncthing.StatusCompletion)) :
    (groupCompletion arg).completion =
      (if (groupCompletion arg).totalBytes = 0 then none
       else some ⌊(100 : ℚ) *
         (1 - ((groupCompletion arg).needBytes : ℚ) /
           ((groupCompletion arg).totalBytes : ℚ))⌋) := by
  unfold groupCompletion
  rfl

/-- Exact-arithmetic characterization of `Completion == 100` for
non-negative counters: the floored percentage is `100` precisely when no
bytes are needed and some bytes are globally known. -/
theorem floor_completion_eq_100_iff (nb tb : Int) (hnb : 0 ≤ nb)
    (htb : 0 < tb) :
    (⌊(100 : ℚ) * (1 - (nb : ℚ) / (tb : ℚ))⌋ = 100) ↔ nb = 0 := by
  constructor
  · intro h
    have h1 := (Int.floor_eq_iff.mp h).1
    by_contra hne
    have hpos : (0 : ℚ) < (nb : ℚ) / (tb : ℚ) := by
      apply div_pos
      · exact_mod_cast lt_of_le_of_ne hnb (Ne.symm hne)
      · exact_mod_cast htb
    have : (100 : ℚ) * (1 - (nb : ℚ) / (tb : ℚ)) < 100 := by nlinarith
    have h2 : ((100 : Int) : ℚ) ≤ (100 : ℚ) * (1 - (nb : ℚ) / (tb : ℚ)) := h1
    push_cast at h2
    linarith
  · intro h
    subst h
    norm_num
end app

/-! ## Helpers for the string claims -/

theorem string_length_ne_zero_iff (s : String) : s.length ≠ 0 ↔ s ≠ "" := by
  constructor
  · intro h he
    subst he
    exact h rfl
  · intro h hl
    exact h (String.ext (List.length_eq_zero.mp hl))

theorem stringsIndexDash_of_not_mem : ∀ {id : List Char}, '-' ∉ id →
    app.stringsIndexDash id = -1 := by
  intro id
  induction id with
  | nil => intro _; rfl
  | cons c rest ih =>
    intro h
    have hc : ¬ c = '-' := fun hce => h (hce ▸ List.mem_cons_self c rest)
    have hr : '-' ∉ rest := fun hm => h (List.mem_cons_of_mem c hm)
    simp [app.stringsIndexDash, hc, ih hr]

theorem stringsIndexDash_nonneg : ∀ {id : List Char}, '-' ∈ id →
    0 ≤ app.stringsIndexDash id := by
  intro id
  induction id with
  | nil => intro h; exact absurd h (List.not_mem_nil _)
  | cons c rest ih =>
    intro h
    by_cases hc : c = '-'
    · simp [app.stringsIndexDash, hc]
    · have hr : '-' ∈ rest := by
        rcases List.mem_cons.mp h with h1 | h1
        · exact absurd h1.symm hc
        · exact h1
      have h0 := ih hr
      have hne : app.stringsIndexDash rest ≠ -1 := by omega
      simp only [app.stringsIndexDash, if_neg (fun hce => hc hce), if_neg hne]
      omega

theorem take_stringsIndexDash : ∀ {id : List Char}, '-' ∈ id →
    id.take (app.stringsIndexDash id).toNat =
      id.takeWhile (fun c => c ≠ '-') := by
  intro id
  induction id with
  | nil => intro h; exact absurd h (List.not_mem_nil _)
  | cons c rest ih =>
    intro h
    by_cases hc : c = '-'
    · subst hc
      simp [app.stringsIndexDash, List.takeWhile_cons]
    · have hr : '-' ∈ rest := by
        rcases List.mem_cons.mp h with h1 | h1
        · exact absurd h1.symm hc
        · exact h1
      have h0 := stringsIndexDash_nonneg hr
      have hne : app.stringsIndexDash rest ≠ -1 := by omega
      have hstep : app.stringsIndexDash (c :: rest) =
          app.stringsIndexDash rest + 1 := by
        simp only [app.stringsIndexDash, if_neg (fun hce => hc hce),
          if_neg hne]
      rw [hstep]
      have htn : (app.stringsIndexDash rest + 1).toNat =
          (app.stringsIndexDash rest).toNat + 1 := by omega
      rw [htn, List.take_succ_cons, List.takeWhile_cons]
      simp [hc, ih hr]

/-! # Claim theorems -/

/-- A folder projection with remote state `"idle"`, `paused = true` and a
non-empty error string (the priority example of the specification). -/
def exampleErrorFolder : app.FolderViewModel :=
  { config := { id := "f1", label := "F1", type := "sendreceive"
                devices := [⟨"A"⟩, ⟨"B"⟩], paused := true }
    status := { invalid := "", needTotalItems := 0
                receiveOnlyTotalItems := 0, state := "idle"
                error := "folder marker missing" }
    extraStats := syncthing.FolderStats.zero
    scanProgress := syncthing.FolderScanProgressEventData.zero
    sharedDevices := [] }

/-- **C5**: `folderStatus` evaluates its conditions as an ordered
priority list where the first match wins, in the order: state
`"syncing"`, state `"sync-preparing"`, state `"scanning"`, any
invalid/error string, config paused flag, exactly one configured device,
needed-items counter > 0, receive-only changed items for
receive-only/receive-encrypted folders, state `"idle"`, else `Unknown`
(`folderStatusSpec` is that list written from the specification); in
particular a folder with remote state `"idle"`, `paused = true`, and a
non-empty error string resolves to `Error`, not `Paused` or `Idle`. -/
theorem C5_folderStatus_priority_order :
    (∀ f : app.FolderViewModel, app.folderStatus f = app.folderStatusSpec f)
      ∧ app.folderStatus exampleErrorFolder = app.FolderStatusKind.error
      ∧ exampleErrorFolder.status.state = "idle"
      ∧ exampleErrorFolder.config.paused = true
      ∧ exampleErrorFolder.status.error ≠ "" := by
  refine ⟨fun f => ?_, by decide, rfl, rfl, by decide⟩
  simp only [app.folderStatus, app.folderStatusSpec,
    string_length_ne_zero_iff]

/-- **C7**: the rate calculator returns 0 when `before.bytes = 0`,
returns 0 when the elapsed time truncated to whole seconds is 0, and
otherwise returns `(after.bytes - before.bytes)` divided (Go `int64`
division) by the elapsed whole seconds; in particular
`rate({bytes:1000, at:T}, {bytes:3000, at:T+2s}) = 1000`. -/
theorem C7_byteThroughputInSeconds_spec :
    (∀ b a : app.TotalBytes, b.bytes = 0 →
      app.byteThroughputInSeconds b a = 0)
    ∧ (∀ b a : app.TotalBytes, Int.tdiv (a.atNs - b.atNs) 1000000000 = 0 →
      app.byteThroughputInSeconds b a = 0)
    ∧ (∀ b a : app.TotalBytes, b.bytes ≠ 0 →
      Int.tdiv (a.atNs - b.atNs) 1000000000 ≠ 0 →
      app.byteThroughputInSeconds b a =
        Int.tdiv (a.bytes - b.bytes) (Int.tdiv (a.atNs - b.atNs) 1000000000))
    ∧ (∀ t : Int, app.byteThroughputInSeconds ⟨1000, t⟩
        ⟨3000, t + 2000000000⟩ = 1000) := by
  refine ⟨?_, ?_, ?_, ?_⟩
  · intro b a h
    simp [app.byteThroughputInSeconds, h]
  · intro b a h
    by_cases hb : b.bytes = 0 <;>
      simp [app.byteThroughputInSeconds, h, hb]
  · intro b a hb ht
    simp [app.byteThroughputInSeconds, hb, ht]
  · intro t
    have h : (t + 2000000000 : Int) - t = 2000000000 := by ring
    simp only [app.byteThroughputInSeconds, h]
    decide

/-- Witness for C7 at concrete samples: a zero first sample, an elapsed
time under one second, and the specification's own worked example. -/
theorem C7_byteThroughputInSeconds_spec_witness :
    app.byteThroughputInSeconds ⟨0, 0⟩ ⟨500, 1000000000⟩ = 0
    ∧ app.byteThroughputInSeconds ⟨7, 0⟩ ⟨9, 500000000⟩ = 0
    ∧ app.byteThroughputInSeconds ⟨500, 0⟩ ⟨2500, 4000000000⟩ = 500
    ∧ app.byteThroughputInSeconds ⟨1000, 0⟩ ⟨3000, 2000000000⟩ = 1000 := by
  refine ⟨C7_byteThroughputInSeconds_spec.1 ⟨0, 0⟩ ⟨500, 1000000000⟩ rfl,
    C7_byteThroughputInSeconds_spec.2.1 ⟨7, 0⟩ ⟨9, 500000000⟩ (by decide),
    ?_, ?_⟩
  · have h := C7_byteThroughputInSeconds_spec.2.2.1 ⟨500, 0⟩
      ⟨2500, 4000000000⟩ (by decide) (by decide)
    rw [h]
    decide
  · have h := C7_byteThroughputInSeconds_spec.2.2.2 0
    simpa using h

/-- **C9**: `shortIdentification` returns the upper-cased prefix before
the first `'-'` for every id containing a dash; for an id with no dash,
`strings.Index` returns `-1` and the slice `id[0:-1]` is out of range
(modelled as `none`), so the operation is only safe when every device ID
contains a dash. -/
theorem C9_shortIdentification_spec :
    (∀ id : List Char, '-' ∈ id →
      app.shortIdentification id =
        some ((id.takeWhile (fun c => c ≠ '-')).map Char.toUpper))
    ∧ (∀ id : List Char, '-' ∉ id → app.shortIdentification id = none) := by
  constructor
  · intro id h
    have h0 := stringsIndexDash_nonneg h
    unfold app.shortIdentification
    rw [if_neg (by omega), take_stringsIndexDash h]
  · intro id h
    unfold app.shortIdentification
    rw [stringsIndexDash_of_not_mem h]
    rfl

/-- Witness for C9: a dashed id is shortened and upper-cased, a dashless
id hits the out-of-range slice (`none`). -/
theorem C9_shortIdentification_spec_witness :
    app.shortIdentification "abcd-efg".toList = some "ABCD".toList
    ∧ app.shortIdentification "abcd".toList = none := by
  constructor
  · have h := C9_shortIdentification_spec.1 "abcd-efg".toList (by decide)
    rw [h]
    decide
  · exact C9_shortIdentification_spec.2 "abcd".toList (by decide)

/-- **C10**: applying a per-folder completion delta (from a
`FolderCompletion` event or a completion fetch result) for a device ID
not present in the device list leaves the state unchanged: no device
entry is created and no other device's completion map is modified. -/
theorem C10_completion_unknown_device_frame :
    (∀ (devices : List app.DeviceViewModel) (dID fID : String)
        (sc : syncthing.StatusCompletion),
      (∀ d ∈ devices, d.config.deviceID ≠ dID) →
      app.updateDeviceStatusCompletion devices dID fID sc = devices)
    ∧ (∀ (st : app.ProjectionState) (e : app.Event app.EventData)
        (d : syncthing.FolderCompletionEventData),
      e.data = app.EventData.folderCompletion d →
      (∀ dv ∈ st.devices, dv.config.deviceID ≠ d.device) →
      app.applyEventData st e = st)
    ∧ (∀ (devices : List app.DeviceViewModel) (dID fID : String)
        (completion : syncthing.StatusCompletion) (hc : Bool),
      (∀ d ∈ devices, d.config.deviceID ≠ dID) →
      app.applyFetchedCompletion devices dID fID completion hc = devices) := by
  have hbase : ∀ (devices : List app.DeviceViewModel) (dID fID : String)
      (sc : syncthing.StatusCompletion),
      (∀ d ∈ devices, d.config.deviceID ≠ dID) →
      app.updateDeviceStatusCompletion devices dID fID sc = devices := by
    intro devices dID fID sc h
    induction devices with
    | nil => rfl
    | cons d rest ih =>
      have hd : ¬ d.config.deviceID = dID :=
        h d (List.mem_cons_self d rest)
      simp only [app.updateDeviceStatusCompletion, if_neg hd]
      rw [ih (fun x hx => h x (List.mem_cons_of_mem d hx))]
  refine ⟨hbase, ?_, ?_⟩
  · intro st e d hdata hdev
    cases e with
    | mk id globalID time data =>
      cases data with
      | folderSummary d' => exact absurd hdata (by simp)
      | configSaved d' => exact absurd hdata (by simp)
      | folderScanProgress d' => exact absurd hdata (by simp)
      | stateChanged d' => exact absurd hdata (by simp)
      | pendingDevicesChanged d' => exact absurd hdata (by simp)
      | unknown raw => exact absurd hdata (by simp)
      | folderCompletion d' =>
        have hd : d' = d := by
          simpa using hdata
        subst hd
        simp [app.applyEventData, hbase st.devices d'.device d'.folder _ hdev]
  · intro devices dID fID completion hc h
    cases hc <;>
      simp [app.applyFetchedCompletion, hbase devices dID fID _ h]

/-- A device projection with ID `"DEV-A"` used by the C10 witness. -/
def devA : app.DeviceViewModel :=
  { config := { deviceID := "DEV-A", name := "a", compression := "metadata"
                paused := false }
    extraStats := syncthing.DeviceStats.zero
    connection := (false, syncthing.Connection.zero)
    statusCompletion := []
    folders := []
    inGoingBytesPerSecond := 0
    outGoingBytesPerSecond := 0 }

/-- Witness for C10: a completion delta for the absent device `"DEV-B"`
leaves the device list `[devA]` unchanged. -/
theorem C10_completion_unknown_device_frame_witness :
    app.updateDeviceStatusCompletion [devA] "DEV-B" "f1"
      syncthing.StatusCompletion.zero = [devA] :=
  C10_completion_unknown_device_frame.1 [devA] "DEV-B" "f1"
    syncthing.StatusCompletion.zero (by decide)

/-- A stored completion record for the pair `("DEV-X", "folderY")` with
non-zero needed bytes, present before the 404 is applied. -/
def staleCompletionY : syncthing.StatusCompletion :=
  { completion := 50, globalBytes := 10, globalItems := 2, needBytes := 5
    needItems := 1, needDeletes := 0, remoteState := "valid", sequence := 7 }

/-- A device projection with ID `"DEV-X"` holding the stale
`("DEV-X", "folderY")` completion entry. -/
def devX : app.DeviceViewModel :=
  { config := { deviceID := "DEV-X", name := "x", compression := "metadata"
                paused := false }
    extraStats := syncthing.DeviceStats.zero
    connection := (false, syncthing.Connection.zero)
    statusCompletion := [("folderY", staleCompletionY)]
    folders := [("folderY", "Y")]
    inGoingBytesPerSecond := 0
    outGoingBytesPerSecond := 0 }

/-- Counterexample to **C3** as stated: an HTTP 404 for
`("DEV-X", "folderY")` produces the no-error, no-completion message, and
applying it does **not** delete the previously stored
`("DEV-X", "folderY")` entry from the device's completion map — the key
is still bound afterwards (to the zero-valued record), so the lookup
returns `some` rather than the `none` a deletion would give. -/
theorem C3_completion404_counterexample :
    app.fetchCompletionResult "DEV-X" "folderY"
        app.CompletionHttpResult.notFound =
      { deviceID := "DEV-X", folderID := "folderY"
        completion := syncthing.StatusCompletion.zero
        hasCompletion := false, isError := false }
    ∧ app.applyFetchedCompletion [devX] "DEV-X" "folderY"
        syncthing.StatusCompletion.zero false =
      [{ devX with statusCompletion :=
          [("folderY", syncthing.StatusCompletion.zero)] }]
    ∧ mapGet
        [(("folderY" : String), syncthing.StatusCompletion.zero)]
        "folderY" ≠ none := by
  refine ⟨rfl, by decide, by decide⟩

/-- **C3 (amended)**: a 404 from the completion endpoint for `(X, Y)` is
treated as "no completion data" (no error), and the resulting apply
operation *overwrites* any previously stored `(X, Y)` entry of the first
device whose ID is `X` with the zero-valued
`syncthing.StatusCompletion{}` record — the key stays in the map, bound
to the zero record, rather than being removed. -/
theorem C3_completion404_upserts_zero :
    (∀ dID fID : String,
      app.fetchCompletionResult dID fID app.CompletionHttpResult.notFound =
        { deviceID := dID, folderID := fID
          completion := syncthing.StatusCompletion.zero
          hasCompletion := false, isError := false })
    ∧ (∀ (rest : List app.DeviceViewModel) (d : app.DeviceViewModel)
        (dID fID : String),
      d.config.deviceID = dID →
      app.applyFetchedCompletion (d :: rest) dID fID
          syncthing.StatusCompletion.zero false =
        { d with statusCompletion :=
            mapSet d.statusCompletion fID syncthing.StatusCompletion.zero }
          :: rest)
    ∧ (∀ (m : List (String × syncthing.StatusCompletion)) (fID : String),
      mapGet (mapSet m fID syncthing.StatusCompletion.zero) fID =
        some syncthing.StatusCompletion.zero) := by
  refine ⟨fun dID fID => rfl, ?_, fun m fID => mapGet_mapSet_self m fID _⟩
  intro rest d dID fID h
  simp [app.applyFetchedCompletion, app.updateDeviceStatusCompletion, h]

/-- Witness for the amended C3 at the concrete `("DEV-X", "folderY")`
pair: the stale entry is overwritten by the zero record. -/
theorem C3_completion404_upserts_zero_witness :
    app.applyFetchedCompletion [devX] "DEV-X" "folderY"
        syncthing.StatusCompletion.zero false =
      [{ devX with statusCompletion :=
          (mapSet devX.statusCompletion "folderY"
            syncthing.StatusCompletion.zero) }] :=
  C3_completion404_upserts_zero.2.1 [] devX "DEV-X" "folderY" rfl

/-- A folder projection with ID `"docs"` holding in-progress scan
counters. -/
def docsFolder : app.FolderViewModel :=
  { config := { id := "docs", label := "Docs", type := "sendreceive"
                devices := [⟨"A"⟩, ⟨"B"⟩], paused := false }
    status := { invalid := "", needTotalItems := 0
                receiveOnlyTotalItems := 0, state := "scanning"
                error := "" }
    extraStats := syncthing.FolderStats.zero
    scanProgress := { folder := "docs", current := 10, total := 100
                      rate := 0 }
    sharedDevices := [] }

/-- **C4** (evaluation at the failing input): applying the state-changed
event `{folder: "docs", from: "idle", to: "scanning"}` leaves the stored
scan-progress counters of folder `"docs"` unchanged — the handler calls
`updateFolderScan` with the zero `FolderScanProgressEventData{}`, whose
`Folder` field is `""`, so only a folder whose ID is the empty string
would ever be cleared.  The claim (and the earlier map-based
implementation, src/unnamed/part_000:543, which executed
`delete(m.scanProgress, data.Folder)`) requires the counters of `"docs"`
to be cleared. -/
theorem C4_stateChanged_scanning_does_not_clear :
    app.applyStateChanged [docsFolder]
        { folder := "docs", fromState := "idle", toState := "scanning" } =
      [docsFolder]
    ∧ docsFolder.scanProgress ≠ syncthing.FolderScanProgressEventData.zero
    ∧ (∀ folders : List app.FolderViewModel,
        ∀ d : syncthing.StateChangedEventData, d.toState = "scanning" →
        app.applyStateChanged folders d =
          app.updateFolderScan folders
            syncthing.FolderScanProgressEventData.zero) := by
  refine ⟨by decide, by decide, ?_⟩
  intro folders d h
  simp [app.applyStateChanged, h]

/-- The empty projection state. -/
def emptyProjection : app.ProjectionState :=
  { folders := [], devices := [], pendingDevices := [], thisDeviceID := "" }

/-- A decoded event with ID 5 (a state-changed event that has no effect
on the empty projection). -/
def eventWithId5 : app.Event app.EventData :=
  { id := 5, globalID := 5, time := 0
    data := app.EventData.stateChanged
      { folder := "f1", fromState := "idle", toState := "idle" } }

/-- Counterexample to **C1** as stated: starting from cursor 1, the
batch holding the single event with ID 5 is applied (the request was
neither the since-0 special case nor an error) and the next request uses
`since = 5`; the following successful but *empty* long-poll response
makes the loop issue a request with `since = 0` — not the unchanged 5 —
which is lower than the ID 5 it has already applied.  The trace of
issued `since` values is `[1, 5, 0]`, which is not non-decreasing. -/
theorem C1_cursor_counterexample :
    app.sinceTrace emptyProjection 1
        [([eventWithId5], false), ([], false)] = [1, 5, 0]
    ∧ (app.updateFetchedEvents emptyProjection
        { events := [eventWithId5], since := 1
          isError := false }).2.batchApplied = true
    ∧ ((0 : Int) < 5) := by
  refine ⟨by decide, by decide, by decide⟩

/-- **C1 (amended)**: on a failed fetch the same `since` is retried
after the delay and nothing is applied; on a successful non-empty batch
the events are applied (when the request was not the since-0 special
case) and the next request's `since` equals the ID of the last decoded
event of the batch; but on a successful *empty* batch the next request's
`since` is 0 — restarting the initial discard-history special case — so
the cursor is not non-decreasing and can drop below already-applied
event IDs. -/
theorem C1_nextSince_amended :
    (∀ (st : app.ProjectionState) (msg : app.FetchedEventsMsg),
      msg.isError = true →
      app.updateFetchedEvents st msg =
        (st, { batchApplied := false, nextSince := msg.since
               delayedRetry := true }))
    ∧ (∀ (st : app.ProjectionState) (msg : app.FetchedEventsMsg)
        (e : app.Event app.EventData),
      msg.isError = false → msg.events.getLast? = some e →
      (app.updateFetchedEvents st msg).2.nextSince = e.id)
    ∧ (∀ (st : app.ProjectionState) (msg : app.FetchedEventsMsg),
      msg.isError = false → msg.events = [] →
      (app.updateFetchedEvents st msg).2.nextSince = 0)
    ∧ (∀ (st : app.ProjectionState) (msg : app.FetchedEventsMsg),
      msg.isError = false → msg.since ≠ 0 →
      (app.updateFetchedEvents st msg).1 =
          app.applyEventBatch st msg.events
        ∧ (app.updateFetchedEvents st msg).2.batchApplied = true) := by
  refine ⟨?_, ?_, ?_, ?_⟩
  · intro st msg h
    simp [app.updateFetchedEvents, h]
  · intro st msg e herr hlast
    by_cases hz : msg.since = 0 <;>
      simp [app.updateFetchedEvents, herr, hz, app.nextSinceOfBatch, hlast]
  · intro st msg herr hnil
    by_cases hz : msg.since = 0 <;>
      simp [app.updateFetchedEvents, herr, hz, app.nextSinceOfBatch, hnil]
  · intro st msg herr hz
    simp [app.updateFetchedEvents, herr, hz]

/-- Witness for the amended C1: an errored fetch at cursor 9 retries 9
after the delay; the batch `[event 5]` at cursor 1 yields next cursor 5;
the empty batch at cursor 5 yields next cursor 0. -/
theorem C1_nextSince_amended_witness :
    app.updateFetchedEvents emptyProjection
        { events := [], since := 9, isError := true } =
      (emptyProjection, { batchApplied := false, nextSince := 9
                          delayedRetry := true })
    ∧ (app.updateFetchedEvents emptyProjection
        { events := [eventWithId5], since := 1
          isError := false }).2.nextSince = 5
    ∧ (app.updateFetchedEvents emptyProjection
        { events := [], since := 5, isError := false }).2.nextSince = 0 := by
  refine ⟨C1_nextSince_amended.1 emptyProjection _ rfl, ?_,
    C1_nextSince_amended.2.2.1 emptyProjection _ rfl rfl⟩
  have h := C1_nextSince_amended.2.1 emptyProjection
    { events := [eventWithId5], since := 1, isError := false }
    eventWithId5 rfl rfl
  simpa using h

/-- The raw batch of the C2 counterexample: a well-formed state-changed
event with ID 1 followed by a `FolderCompletion` event with ID 2 whose
payload fails to parse against its expected shape. -/
def mixedRawBatch : List (app.Event app.RawEventData) :=
  [{ id := 1, globalID := 1, time := 0
     data := app.RawEventData.stateChanged
       (some { folder := "f1", fromState := "idle", toState := "idle" }) },
   { id := 2, globalID := 2, time := 0
     data := app.RawEventData.folderCompletion none }]

/-- Counterexample to **C2** as stated: in a batch whose second event is
a `FolderCompletion` with an unparseable payload, the failing event is
dropped from the decoded list but the decode loop assigns the parse
error to the function-level `err` (`err = er`), so the resulting
`FetchedEventsMsg` carries an error; the `Update` error branch then
applies *none* of the batch's events (the well-formed event with ID 1
included), keeps the cursor at 7, and schedules the delayed retry — the
parse failure *is* treated as a fetch-level error that stalls the
cursor. -/
theorem C2_decode_error_counterexample :
    app.parseEvents mixedRawBatch =
      ([{ id := 1, globalID := 1, time := 0
          data := app.EventData.stateChanged
            { folder := "f1", fromState := "idle", toState := "idle" } }],
        true)
    ∧ app.updateFetchedEvents emptyProjection
        { events := (app.parseEvents mixedRawBatch).1, since := 7
          isError := (app.parseEvents mixedRawBatch).2 } =
      (emptyProjection,
        { batchApplied := false, nextSince := 7, delayedRetry := true }) := by
  refine ⟨by decide, by decide⟩

/-- **C2 (amended)**: a payload parse failure on a `FolderSummary`,
`ConfigSaved`, `FolderScanProgress` or `StateChanged` event skips only
that event (the batch-level error is untouched); but a parse failure on
a `FolderCompletion` or `PendingDevicesChanged` event, while also
skipping the event, additionally sets the fetch-level error of the
message, and the update loop then discards the whole decoded batch
(applying none of its events), keeps the cursor unchanged, and retries
the same request after the fixed delay. -/
theorem C2_decode_skip_amended :
    (∀ (e : app.Event app.RawEventData)
        (rest : List (app.Event app.RawEventData)),
      (e.data = app.RawEventData.folderSummary none ∨
       e.data = app.RawEventData.configSaved none ∨
       e.data = app.RawEventData.folderScanProgress none ∨
       e.data = app.RawEventData.stateChanged none) →
      app.parseEvents (e :: rest) = app.parseEvents rest)
    ∧ (∀ (e : app.Event app.RawEventData)
        (rest : List (app.Event app.RawEventData)),
      (e.data = app.RawEventData.folderCompletion none ∨
       e.data = app.RawEventData.pendingDevicesChanged none) →
      app.parseEvents (e :: rest) = ((app.parseEvents rest).1, true))
    ∧ (∀ (st : app.ProjectionState) (msg : app.FetchedEventsMsg),
      msg.isError = true →
      app.updateFetchedEvents st msg =
        (st, { batchApplied := false, nextSince := msg.since
               delayedRetry := true })) := by
  refine ⟨?_, ?_, ?_⟩
  · intro e rest h
    cases e with
    | mk id globalID time data =>
      rcases h with h | h | h | h <;>
        simp only [app.Event.data] at h <;> subst h <;>
        simp [app.parseEvents]
  · intro e rest h
    cases e with
    | mk id globalID time data =>
      rcases h with h | h <;>
        simp only [app.Event.data] at h <;> subst h <;>
        simp [app.parseEvents]
  · intro st msg h
    simp [app.updateFetchedEvents, h]

/-- A `FolderSummary` event whose payload fails to parse. -/
def badSummaryEvent : app.Event app.RawEventData :=
  { id := 3, globalID := 3, time := 0
    data := app.RawEventData.folderSummary none }

/-- A `PendingDevicesChanged` event whose payload fails to parse. -/
def badPendingEvent : app.Event app.RawEventData :=
  { id := 4, globalID := 4, time := 0
    data := app.RawEventData.pendingDevicesChanged none }

/-- Witness for the amended C2: a lone unparseable `FolderSummary` event
decodes to the empty batch with no error; a lone unparseable
`PendingDevicesChanged` event decodes to the empty batch *with* the
error flag; an errored message at cursor 7 stalls the cursor and takes
the delayed-retry path. -/
theorem C2_decode_skip_amended_witness :
    app.parseEvents [badSummaryEvent] = ([], false)
    ∧ app.parseEvents [badPendingEvent] = ([], true)
    ∧ app.updateFetchedEvents emptyProjection
        { events := [], since := 7, isError := true } =
      (emptyProjection, { batchApplied := false, nextSince := 7
                          delayedRetry := true }) := by
  refine ⟨?_, ?_, C2_decode_skip_amended.2.2 emptyProjection _ rfl⟩
  · have h := C2_decode_skip_amended.1 badSummaryEvent [] (Or.inl rfl)
    simpa using h
  · have h := C2_decode_skip_amended.2.1 badPendingEvent [] (Or.inr rfl)
    simpa using h

/-- **C8**: every apply operation of the projection store is idempotent
with respect to re-delivery of the same event content: re-applying any
decoded event to the projection state yields the same state as applying
it once, and likewise for each individual apply/merge operation —
folder-status delta (in particular), scan-progress delta, folder/device
stats snapshots, per-pair completion upsert, state-changed handling,
pending-devices changes, the two config merges, and the completion
fetch-result apply. -/
theorem C8_apply_operations_idempotent :
    (∀ (st : app.ProjectionState) (e : app.Event app.EventData),
      app.applyEventData (app.applyEventData st e) e =
        app.applyEventData st e)
    ∧ (∀ (folders : List app.FolderViewModel)
        (s : String × syncthing.FolderStatus),
      app.updateFolderStatus (app.updateFolderStatus folders s) s =
        app.updateFolderStatus folders s)
    ∧ (∀ (folders : List app.FolderViewModel)
        (sp : syncthing.FolderScanProgressEventData),
      app.updateFolderScan (app.updateFolderScan folders sp) sp =
        app.updateFolderScan folders sp)
    ∧ (∀ (folders : List app.FolderViewModel)
        (sd : List (String × syncthing.FolderStats)),
      app.updateFolderStats (app.updateFolderStats folders sd) sd =
        app.updateFolderStats folders sd)
    ∧ (∀ (devices : List app.DeviceViewModel)
        (sd : List (String × syncthing.DeviceStats)),
      app.updateDeviceExtraStats (app.updateDeviceExtraStats devices sd) sd =
        app.updateDeviceExtraStats devices sd)
    ∧ (∀ (devices : List app.DeviceViewModel) (dID fID : String)
        (sc : syncthing.StatusCompletion),
      app.updateDeviceStatusCompletion
          (app.updateDeviceStatusCompletion devices dID fID sc) dID fID sc =
        app.updateDeviceStatusCompletion devices dID fID sc)
    ∧ (∀ (folders : List app.FolderViewModel)
        (d : syncthing.StateChangedEventData),
      app.applyStateChanged (app.applyStateChanged folders d) d =
        app.applyStateChanged folders d)
    ∧ (∀ (pending : List (String × app.PendingDevice))
        (d : syncthing.PendingDevicesChangedEventData) (t : Int),
      app.applyPendingDevicesChanged
          (app.applyPendingDevicesChanged pending d t) d t =
        app.applyPendingDevicesChanged pending d t)
    ∧ (∀ (c : syncthing.Config) (cur : List app.FolderViewModel)
        (tid : String),
      app.updateFolderViewModelConfigs c
          (app.updateFolderViewModelConfigs c cur tid) tid =
        app.updateFolderViewModelConfigs c cur tid)
    ∧ (∀ (c : syncthing.Config) (cur : List app.DeviceViewModel)
        (tid : String),
      app.updateDeviceViewModelConfigs c
          (app.updateDeviceViewModelConfigs c cur tid) tid =
        app.updateDeviceViewModelConfigs c cur tid)
    ∧ (∀ (devices : List app.DeviceViewModel) (dID fID : String)
        (completion : syncthing.StatusCompletion) (hc : Bool),
      app.applyFetchedCompletion
          (app.applyFetchedCompletion devices dID fID completion hc)
          dID fID completion hc =
        app.applyFetchedCompletion devices dID fID completion hc) :=
  ⟨app.applyEventData_idem, app.updateFolderStatus_idem,
    app.updateFolderScan_idem, app.updateFolderStats_idem,
    app.updateDeviceExtraStats_idem, app.updateDeviceStatusCompletion_idem,
    app.applyStateChanged_idem, app.applyPendingDevicesChanged_idem,
    app.updateFolderViewModelConfigs_idem,
    app.updateDeviceViewModelConfigs_idem, app.applyFetchedCompletion_idem⟩

/-- The single completion entry of the C6 counterexample device: no
needed bytes, five needed items, zero globally-known bytes. -/
def needsItemsCompletion : syncthing.StatusCompletion :=
  { completion := 0, globalBytes := 0, globalItems := 0, needBytes := 0
    needItems := 5, needDeletes := 0, remoteState := "valid", sequence := 1 }

/-- A connected, non-paused device sharing one folder, whose aggregated
completion has zero needed bytes but five needed items and zero
globally-known bytes. -/
def needsItemsDevice : app.DeviceViewModel :=
  { config := { deviceID := "DEV-C", name := "c", compression := "metadata"
                paused := false }
    extraStats := syncthing.DeviceStats.zero
    connection := (true, { syncthing.Connection.zero with connected := true })
    statusCompletion := [("f", needsItemsCompletion)]
    folders := [("f", "F")]
    inGoingBytesPerSecond := 0
    outGoingBytesPerSecond := 0 }

/-- Counterexample to **C6** as stated: `needsItemsDevice` is connected,
not paused, has a known connection record, and its aggregated completion
has **zero** global-needed bytes — by the claim's "exactly when" it
should resolve to `InSync` — yet `deviceStatus` returns `Syncing`,
because the aggregate needs items and the floored completion percentage
is not 100 (with zero total bytes the Go float computation yields NaN). -/
theorem C6_deviceStatus_counterexample :
    (app.groupCompletion needsItemsDevice.statusCompletion).needBytes = 0
    ∧ needsItemsDevice.connection.1 = true
    ∧ needsItemsDevice.config.paused = false
    ∧ needsItemsDevice.connection.2.connected = true
    ∧ needsItemsDevice.folders.length ≠ 0
    ∧ app.deviceStatus needsItemsDevice 0 = app.DeviceStatusKind.syncing := by
  refine ⟨by decide, rfl, rfl, rfl, by decide, by decide⟩

/-- **C6 (amended)**: for every non-paused device with a known
connection record and connected = true, whose aggregated byte counters
are non-negative, `deviceStatus` returns InSync (or UnusedInSync when
the device shares zero folders) exactly when the aggregated completion
over its per-folder entries has zero needed bytes *and positive
globally-known bytes*, or no non-zero need counters at all (no needed
bytes, items, or deletes); it returns Syncing otherwise.  In particular,
an entry with non-zero needed bytes gives Syncing, and all entries at 0
needed bytes give InSync only when bytes are globally known or nothing
else is needed. -/
theorem C6_deviceStatus_connected_amended
    (device : app.DeviceViewModel) (currentTime : Int)
    (hconn : device.connection.1 = true)
    (hpause : device.config.paused = false)
    (hconnected : device.connection.2.connected = true)
    (hnb : 0 ≤ (app.groupCompletion device.statusCompletion).needBytes)
    (htb : 0 ≤ (app.groupCompletion device.statusCompletion).totalBytes) :
    app.deviceStatus device currentTime =
      (if ((app.groupCompletion device.statusCompletion).needBytes = 0
            ∧ 0 < (app.groupCompletion device.statusCompletion).totalBytes)
          ∨ ((app.groupCompletion device.statusCompletion).needBytes = 0
            ∧ (app.groupCompletion device.statusCompletion).needItems = 0
            ∧ (app.groupCompletion device.statusCompletion).needDeletes = 0)
        then (if device.folders.length = 0
              then app.DeviceStatusKind.unusedInSync
              else app.DeviceStatusKind.inSync)
        else app.DeviceStatusKind.syncing) := by
  have hG := app.groupCompletion_fields device.statusCompletion
  have key : ((app.groupCompletion device.statusCompletion).completion =
        some 100
      ∨ ¬((app.groupCompletion device.statusCompletion).needBytes ≠ 0
        ∨ (app.groupCompletion device.statusCompletion).needItems ≠ 0
        ∨ (app.groupCompletion device.statusCompletion).needDeletes ≠ 0)) ↔
      (((app.groupCompletion device.statusCompletion).needBytes = 0
        ∧ 0 < (app.groupCompletion device.statusCompletion).totalBytes)
      ∨ ((app.groupCompletion device.statusCompletion).needBytes = 0
        ∧ (app.groupCompletion device.statusCompletion).needItems = 0
        ∧ (app.groupCompletion device.statusCompletion).needDeletes = 0)) := by
    rcases eq_or_lt_of_le htb with htb0 | htb0
    · rw [hG, if_pos htb0.symm]
      constructor
      · rintro (h | h)
        · exact absurd h (by simp)
        · push_neg at h
          exact Or.inr ⟨h.1, h.2.1, h.2.2⟩
      · rintro (⟨h1, h2⟩ | ⟨h1, h2, h3⟩)
        · rw [← htb0] at h2
          exact absurd h2 (lt_irrefl 0)
        · right
          push_neg
          exact ⟨h1, h2, h3⟩
    · rw [hG, if_neg (by omega)]
      constructor
      · rintro (h | h)
        · have h100 := Option.some_injective _ h
          have hnb0 := (app.floor_completion_eq_100_iff _ _ hnb htb0).mp h100
          exact Or.inl ⟨hnb0, htb0⟩
        · push_neg at h
          exact Or.inr ⟨h.1, h.2.1, h.2.2⟩
      · rintro (⟨h1, -⟩ | ⟨h1, h2, h3⟩)
        · left
          rw [(app.floor_completion_eq_100_iff _ _ hnb htb0).mpr h1]
        · right
          push_neg
          exact ⟨h1, h2, h3⟩
  unfold app.deviceStatus
  simp only [hconn, hpause, hconnected, Bool.true_eq_false, if_false,
    Bool.false_eq_true, if_true]
  exact if_congr key rfl rfl

/-- The single completion entry of the C6 witness device: fully in sync
with 100 globally-known bytes. -/
def inSyncCompletion : syncthing.StatusCompletion :=
  { completion := 100, globalBytes := 100, globalItems := 3, needBytes := 0
    needItems := 0, needDeletes := 0, remoteState := "valid", sequence := 2 }

/-- A connected, non-paused device sharing one folder with everything in
sync. -/
def inSyncDevice : app.DeviceViewModel :=
  { config := { deviceID := "DEV-D", name := "d", compression := "metadata"
                paused := false }
    extraStats := syncthing.DeviceStats.zero
    connection := (true, { syncthing.Connection.zero with connected := true })
    statusCompletion := [("f", inSyncCompletion)]
    folders := [("f", "F")]
    inGoingBytesPerSecond := 0
    outGoingBytesPerSecond := 0 }

/-- Witness for the amended C6: the fully-in-sync connected device
resolves to `InSync`. -/
theorem C6_deviceStatus_connected_amended_witness :
    app.deviceStatus inSyncDevice 0 = app.DeviceStatusKind.inSync := by
  have h := C6_deviceStatus_connected_amended inSyncDevice 0 rfl rfl rfl
    (by decide) (by decide)
  rw [h]
  decide
